import Mathlib

/-!
# StateSnap: the periodic scenario-snapshot module

A shallow embedding of `StateSnap.cpp` / `StateSnap.h`.

* C strings (`char[]`) are lists of characters; `snprintf` into a buffer of `n` bytes keeps the
  first `n - 1` characters.
* `std::chrono::steady_clock::time_point` is an integer count of clock ticks (nanoseconds);
  `duration_cast<seconds>` is the truncating integer division by `ticksPerSecond`.
* `int` values are integers; the one narrowing conversion of the source,
  `static_cast<int>(elapsed)` from the 64-bit seconds count, wraps modulo `2 ^ 32`.
* `double` values are rationals; the function `fl : ℚ → ℚ` passed to the numeric code is the
  rounding applied to the result of every `double` operation (each operation rounded on its own,
  no fused multiply-add) and to every literal that is not a dyadic number.  `binary64` is
  IEEE-754 round-to-nearest-even, `id` is exact arithmetic.
* Every value the host or the operating system returns during a call (clock readings, calendar
  date, focus vessel, simulation time, file handles) is an explicit argument.
-/

/-- A C string held in a `char` array. -/
abbrev CStr := List Char

/-- The text `snprintf(buf, size, ...)` leaves in `buf`: at most `size - 1` characters. -/
def snprintf (size : Nat) (text : CStr) : CStr := text.take (size - 1)

/-- Left-pads a digit string with `'0'` up to `width` characters. -/
def zeroPad (width : Nat) (digits : CStr) : CStr :=
  List.replicate (width - digits.length) '0' ++ digits

/-- The conversion `%0<width>d` of `printf`: the sign counts towards the width. -/
def fmtD0 (width : Nat) (n : Int) : CStr :=
  if 0 ≤ n then zeroPad width (Nat.toDigits 10 n.toNat)
  else '-' :: zeroPad (width - 1) (Nat.toDigits 10 n.natAbs)

/-- Conversion `static_cast<int>(x)` of a 64-bit integer: reduction modulo `2 ^ 32` into the
range of `int`. -/
def toInt32 (x : Int) : Int := (x + 2147483648) % 4294967296 - 2147483648

/-- Conversion `static_cast<int>(x)` of a `double`: truncation towards zero. -/
def truncToInt (x : ℚ) : Int := if 0 ≤ x then ⌊x⌋ else ⌈x⌉

/-- Ticks of `std::chrono::steady_clock` in one second. -/
def ticksPerSecond : Int := 1000000000

/-- The count of `std::chrono::duration_cast<std::chrono::seconds>(d)`. -/
def durationCastSeconds (d : Int) : Int := Int.tdiv d ticksPerSecond

/-! ## IEEE-754 binary64 rounding -/

/-- Rounds a rational to the nearest integer, ties to the even one. -/
def roundHalfEven (q : ℚ) : Int :=
  let f := ⌊q⌋
  let r := q - f
  if r < 1 / 2 then f
  else if 1 / 2 < r then f + 1
  else if f % 2 = 0 then f else f + 1

/-- Binary logarithm by repeated halving, at most `fuel` times. -/
def log2Fuel : Nat → Nat → Nat
  | 0, _ => 0
  | fuel + 1, n => if n ≥ 2 then log2Fuel fuel (n / 2) + 1 else 0

/-- The position of the highest set bit of `n`: `2 ^ floorLog2 n ≤ n < 2 ^ (floorLog2 n + 1)` for
`n ≥ 1`. -/
def floorLog2 (n : Nat) : Nat := log2Fuel n n

/-- The integer `k` with `2 ^ k ≤ |x| < 2 ^ (k + 1)`, for `x ≠ 0`. -/
def ilog2 (x : ℚ) : Int :=
  let k : Int := (floorLog2 x.num.natAbs : Int) - (floorLog2 x.den : Int)
  if (2 : ℚ) ^ k ≤ |x| then k else k - 1

/-- Round-to-nearest-even onto the binary64 grid (53-bit significand, smallest exponent
`-1074`).  Overflow to infinity is not represented; every `double` of this module is far below
`2 ^ 1024`. -/
def binary64 (x : ℚ) : ℚ :=
  if x = 0 then 0
  else
    let e : Int := max (ilog2 x - 52) (-1074)
    (roundHalfEven (x / (2 : ℚ) ^ e) : ℚ) * (2 : ℚ) ^ e

/-! ## The config file -/

/-- The value of one `key = value` line, as the typed readers of the host see it. -/
inductive CfgValue where
  | int (v : Int)
  | bool (b : Bool)
  | text (t : CStr)
deriving DecidableEq, Repr

/-- The host's flat key-value file: its items in file order. -/
abbrev CfgFile := List (String × CfgValue)

/-- Name of the config file. -/
def CFGFILE : String := "StateSnap.cfg"

/-- Host call `oapiReadItem_int`: the first item of that name, when its value reads as an
integer. -/
def oapiReadItem_int (f : CfgFile) (item : String) : Option Int :=
  match f.lookup item with
  | some (CfgValue.int v) => some v
  | _ => none

/-- Host call `oapiReadItem_bool`: the first item of that name, when its value reads as a
boolean. -/
def oapiReadItem_bool (f : CfgFile) (item : String) : Option Bool :=
  match f.lookup item with
  | some (CfgValue.bool b) => some b
  | _ => none

/-- Host call `oapiWriteItem_int`: appends one line to the file being written. -/
def oapiWriteItem_int (f : CfgFile) (item : String) (v : Int) : CfgFile :=
  f ++ [(item, CfgValue.int v)]

/-- Host call `oapiWriteItem_bool`: appends one line to the file being written. -/
def oapiWriteItem_bool (f : CfgFile) (item : String) (b : Bool) : CfgFile :=
  f ++ [(item, CfgValue.bool b)]

/-! ## Module state and host -/

/-- The data members of `class StateSnap`.  The annotation behind `hNote` is represented by the
text it displays; `none` is the null handle. -/
structure StateSnap where
  interval : Int
  paused : Bool
  lastSaveTime : Int
  showNotification : Bool
  hNote : Option CStr
  notificationEndTime : ℚ
deriving DecidableEq, Repr

/-- What the module leaves with the host: the calls of `oapiSaveScenario` made so far (newest
first, each with its file name and description) and the content of `StateSnap.cfg`, if the file
exists. -/
structure Host where
  scenarios : List (CStr × CStr)
  cfgFile : Option CfgFile
deriving DecidableEq, Repr

/-- The answers of host and operating system to the queries made inside one `DoSave`. -/
structure SaveQueries where
  tmYear : Int
  tmMon : Int
  tmMday : Int
  focusName : Option CStr
  simMJD : ℚ
  steadyNow : Int
  simTime : ℚ
deriving DecidableEq, Repr

/-- Decoded calendar date and time of day. -/
structure DateTime where
  year : Int
  month : Int
  day : Int
  hour : Int
  min : Int
  sec : Int
deriving DecidableEq, Repr

/-- Notification display duration in seconds. -/
def NOTIFICATION_DURATION : ℚ := 3

/-! ## Filename generator -/

/-- Source function `MJDToDateTime`: Meeus' Julian-day decomposition, every `double` result
rounded by `fl`. -/
def MJDToDateTime (fl : ℚ → ℚ) (mjd : ℚ) : DateTime :=
  let jd := fl (mjd + 2400000.5)
  let Z := truncToInt (fl (jd + 0.5))
  let F := fl (fl (jd + 0.5) - Z)
  let A :=
    if Z < 2299161 then Z
    else
      let alpha := truncToInt (fl (fl (Z - 1867216.25) / 36524.25))
      Z + 1 + alpha - Int.tdiv alpha 4
  let B := A + 1524
  let C := truncToInt (fl (fl (B - fl 122.1) / 365.25))
  let D := truncToInt (fl (365.25 * C))
  let E := truncToInt (fl (((B - D : Int) : ℚ) / fl 30.6001))
  let day := B - D - truncToInt (fl (fl 30.6001 * E))
  let month := if E < 14 then E - 1 else E - 13
  let year := if month > 2 then C - 4716 else C - 4715
  let dayFraction := F
  let hour := truncToInt (fl (dayFraction * 24))
  let dayFraction := fl (fl (dayFraction * 24) - hour)
  let min := truncToInt (fl (dayFraction * 60))
  let dayFraction := fl (fl (dayFraction * 60) - min)
  let sec := truncToInt (fl (dayFraction * 60))
  { year := year, month := month, day := day, hour := hour, min := min, sec := sec }

/-- Month abbreviations, index 0 unused. -/
def MONTH_NAMES : List CStr :=
  ["".toList, "Jan".toList, "Feb".toList, "Mar".toList, "Apr".toList, "May".toList,
   "Jun".toList, "Jul".toList, "Aug".toList, "Sep".toList, "Oct".toList, "Nov".toList,
   "Dec".toList]

/-- The simulated date/time part of the file name, `DD-Mon-YYYY-HH.MM.SS`, as the final
`snprintf` of `GenerateSaveFilename` formats it (month clamped to `1..12` first). -/
def simStamp (dt : DateTime) : CStr :=
  let month := if dt.month < 1 then 1 else dt.month
  let month := if month > 12 then 12 else month
  fmtD0 2 dt.day ++ "-".toList ++ MONTH_NAMES.getD month.toNat [] ++ "-".toList
    ++ fmtD0 4 dt.year ++ "-".toList ++ fmtD0 2 dt.hour ++ ".".toList ++ fmtD0 2 dt.min
    ++ ".".toList ++ fmtD0 2 dt.sec

/-- Local variable `folderDate` of `GenerateSaveFilename`: the system date `YYYY-MM-DD` from the
fields of `struct tm`. -/
def folderDate (q : SaveQueries) : CStr :=
  snprintf 32
    (fmtD0 4 (1900 + q.tmYear) ++ "-".toList ++ fmtD0 2 (1 + q.tmMon) ++ "-".toList
      ++ fmtD0 2 q.tmMday)

/-- Local variable `vesselName` of `GenerateSaveFilename`: the focus object name the host writes
into the 256-byte buffer, or the initial `"Autosave"` when nothing has the focus. -/
def vesselName (q : SaveQueries) : CStr :=
  match q.focusName with
  | some name => snprintf 256 name
  | none => "Autosave".toList

/-- Source function `GenerateSaveFilename` with a 512-byte buffer:
`Autosave/<SystemDate>/<VesselName>-<SimDateTime>`.  The call of `EnsureDirectoryExists` only
creates directories and does not enter the text. -/
def GenerateSaveFilename (fl : ℚ → ℚ) (q : SaveQueries) : CStr :=
  let dt := MJDToDateTime fl q.simMJD
  snprintf 512
    ("Autosave/".toList ++ folderDate q ++ "/".toList ++ vesselName q ++ "-".toList
      ++ simStamp dt)

/-! ## The Gregorian calendar and the exact Modified Julian Date -/

/-- Gregorian leap-year rule. -/
def isLeapYear (y : Int) : Prop := (y % 4 = 0 ∧ y % 100 ≠ 0) ∨ y % 400 = 0

instance isLeapYear.decidable (y : Int) : Decidable (isLeapYear y) := by
  unfold isLeapYear; infer_instance

/-- Number of days of month `m` in year `y`. -/
def daysInMonth (y m : Int) : Int :=
  if m = 2 then (if isLeapYear y then 29 else 28)
  else if m = 4 ∨ m = 6 ∨ m = 9 ∨ m = 11 then 30 else 31

/-- Number of days in the first `k` months of year `y`. -/
def daysInMonths (y : Int) : Nat → Int
  | 0 => 0
  | k + 1 => daysInMonths y k + daysInMonth y (k + 1)

/-- Julian day number of the Gregorian calendar date `y-m-d`: day 1721426 is 0001-01-01, each
earlier year counts 365 days plus its leap day. -/
def julianDayNumber (y m d : Int) : Int :=
  1721425 + 365 * (y - 1) + (y - 1) / 4 - (y - 1) / 100 + (y - 1) / 400
    + daysInMonths y (m - 1).toNat + d

/-- A calendar date with a time of day: month `1..12`, day within the month, `h:m:s` within
`23:59:59`. -/
def ValidDateTime (dt : DateTime) : Prop :=
  1 ≤ dt.month ∧ dt.month ≤ 12 ∧ 1 ≤ dt.day ∧ dt.day ≤ daysInMonth dt.year dt.month ∧
  0 ≤ dt.hour ∧ dt.hour ≤ 23 ∧ 0 ≤ dt.min ∧ dt.min ≤ 59 ∧ 0 ≤ dt.sec ∧ dt.sec ≤ 59

instance ValidDateTime.decidable (dt : DateTime) : Decidable (ValidDateTime dt) := by
  unfold ValidDateTime; infer_instance

/-- The exact Modified Julian Date of a date-time: `MJD = JD - 2400000.5`, the Julian day number
being the Julian Date at noon. -/
def exactMJD (dt : DateTime) : ℚ :=
  ((julianDayNumber dt.year dt.month dt.day - 2400001 : Int) : ℚ)
    + ((3600 * dt.hour + 60 * dt.min + dt.sec : Int) : ℚ) / 86400

/-- The date part of `MJDToDateTime` on an integer day number `Z ≥ 2299161`, with the `double`
expressions replaced by the integer quotients they denote in exact arithmetic. -/
def meeusDate (Z : Int) : Int × Int × Int :=
  let alpha := (4 * Z - 7468865) / 146097
  let A := Z + 1 + alpha - alpha / 4
  let B := A + 1524
  let C := (20 * B - 2442) / 7305
  let D := 1461 * C / 4
  let E := 10000 * (B - D) / 306001
  let day := B - D - 306001 * E / 10000
  let month := if E < 14 then E - 1 else E - 13
  let year := if month > 2 then C - 4716 else C - 4715
  (year, month, day)

/-- The date part of `MJDToDateTime` (its lines from `int A` to `year`), as a function of the
integer day number `Z`. -/
def dateOfDayNumber (fl : ℚ → ℚ) (Z : Int) : Int × Int × Int :=
  let A :=
    if Z < 2299161 then Z
    else
      let alpha := truncToInt (fl (fl (Z - 1867216.25) / 36524.25))
      Z + 1 + alpha - Int.tdiv alpha 4
  let B := A + 1524
  let C := truncToInt (fl (fl (B - fl 122.1) / 365.25))
  let D := truncToInt (fl (365.25 * C))
  let E := truncToInt (fl (((B - D : Int) : ℚ) / fl 30.6001))
  let day := B - D - truncToInt (fl (fl 30.6001 * E))
  let month := if E < 14 then E - 1 else E - 13
  let year := if month > 2 then C - 4716 else C - 4715
  (year, month, day)

/-- The time-of-day part of `MJDToDateTime`, as a function of the day fraction `F`. -/
def timeOfDayFraction (fl : ℚ → ℚ) (F : ℚ) : Int × Int × Int :=
  let dayFraction := F
  let hour := truncToInt (fl (dayFraction * 24))
  let dayFraction := fl (fl (dayFraction * 24) - hour)
  let min := truncToInt (fl (dayFraction * 60))
  let dayFraction := fl (fl (dayFraction * 60) - min)
  let sec := truncToInt (fl (dayFraction * 60))
  (hour, min, sec)

/-- Seconds since midnight of a date-time. -/
def secondsOfDay (dt : DateTime) : Int := 3600 * dt.hour + 60 * dt.min + dt.sec

/-- The date of `dt` with the time of day `s` seconds after midnight. -/
def withSecondsOfDay (dt : DateTime) (s : Int) : DateTime :=
  { dt with hour := s / 3600, min := s % 3600 / 60, sec := s % 60 }

/-- The character of one decimal digit. -/
def decimalDigit (d : Int) : Char := Char.ofNat (48 + d.toNat)

/-- A number below 100 written with two digits. -/
def twoDigits (n : Int) : CStr := [decimalDigit (n / 10), decimalDigit (n % 10)]

/-- A number below 10000 written with four digits. -/
def fourDigits (n : Int) : CStr :=
  [decimalDigit (n / 1000), decimalDigit (n / 100 % 10), decimalDigit (n / 10 % 10),
   decimalDigit (n % 10)]

/-- The text `DD-Mon-YYYY-HH.MM.SS` of a date-time, `Mon` from the month table. -/
def stampText (dt : DateTime) : CStr :=
  twoDigits dt.day ++ "-".toList ++ MONTH_NAMES.getD dt.month.toNat [] ++ "-".toList
    ++ fourDigits dt.year ++ "-".toList ++ twoDigits dt.hour ++ ".".toList ++ twoDigits dt.min
    ++ ".".toList ++ twoDigits dt.sec

namespace StateSnap

/-! ## Config store -/

/-- Method `LoadConfig`; `file` is what `oapiOpenFile(CFGFILE, FILE_IN, ROOT)` gives access
to (`none`: no handle). -/
def LoadConfig (s : StateSnap) (file : Option CfgFile) : StateSnap :=
  match file with
  | some hFile =>
    let s :=
      match oapiReadItem_int hFile "Interval" with
      | some val => if val ≥ 1 ∧ val ≤ 60 then { s with interval := val } else s
      | none => s
    match oapiReadItem_bool hFile "ShowNotification" with
    | some bval => { s with showNotification := bval }
    | none => s
  | none => s

/-- The constructor: defaults, then `LoadConfig`.  Members with an in-class initialiser keep
it; `now` is the reading of the steady clock. -/
def new (now : Int) (file : Option CfgFile) : StateSnap :=
  LoadConfig
    { interval := 10, paused := false, lastSaveTime := now, showNotification := true,
      hNote := none, notificationEndTime := 0 }
    file

/-- Method `SaveConfig`; `opened` tells whether `oapiOpenFile(CFGFILE, FILE_OUT, ROOT)`
returned a handle.  A file opened for output starts empty. -/
def SaveConfig (s : StateSnap) (h : Host) (opened : Bool) : Host :=
  if opened then
    let hFile : CfgFile := []
    let hFile := oapiWriteItem_int hFile "Interval" s.interval
    let hFile := oapiWriteItem_bool hFile "ShowNotification" s.showNotification
    { h with cfgFile := some hFile }
  else h

/-! ## Notification presenter -/

/-- Method `ShowSaveNotification`; `simTime` is the value of `oapiGetSimTime()`. -/
def ShowSaveNotification (fl : ℚ → ℚ) (s : StateSnap) (savedFilename : CStr) (simTime : ℚ) :
    StateSnap :=
  match s.hNote with
  | some _ =>
    let msg := snprintf 256 ("StateSnap: Saved ".toList ++ savedFilename)
    { s with hNote := some msg, notificationEndTime := fl (simTime + NOTIFICATION_DURATION) }
  | none => s

/-- Method `ClearNotification`. -/
def ClearNotification (s : StateSnap) : StateSnap :=
  let s :=
    match s.hNote with
    | some _ => { s with hNote := some [] }
    | none => s
  { s with notificationEndTime := 0 }

/-! ## Save timer -/

/-- Method `DoSave`. -/
def DoSave (fl : ℚ → ℚ) (s : StateSnap) (h : Host) (q : SaveQueries) : StateSnap × Host :=
  let saveFilename := GenerateSaveFilename fl q
  let h := { h with scenarios := (saveFilename, "StateSnap autosave".toList) :: h.scenarios }
  let s := { s with lastSaveTime := q.steadyNow }
  if s.showNotification then (ShowSaveNotification fl s saveFilename q.simTime, h)
  else (s, h)

/-- Method `clbkSimulationStart`; `now` is the reading of the steady clock.  The annotation
created by the host starts without text. -/
def clbkSimulationStart (s : StateSnap) (now : Int) : StateSnap :=
  { s with paused := false, lastSaveTime := now, notificationEndTime := 0, hNote := some [] }

/-- Method `clbkSimulationEnd`, as far as the module state goes. -/
def clbkSimulationEnd (s : StateSnap) : StateSnap :=
  { s with hNote := none }

/-- Method `clbkPostStep`; `now` is the reading of the steady clock taken for the check, `q`
holds the answers to the queries of `DoSave` should it run. -/
def clbkPostStep (fl : ℚ → ℚ) (s : StateSnap) (h : Host) (simt : ℚ) (now : Int)
    (q : SaveQueries) : StateSnap × Host :=
  let r : StateSnap × Host :=
    if ¬ s.paused then
      let elapsed := durationCastSeconds (now - s.lastSaveTime)
      if elapsed ≥ s.interval * 60 then DoSave fl s h q else (s, h)
    else (s, h)
  if r.1.notificationEndTime > 0 ∧ simt ≥ r.1.notificationEndTime then
    (ClearNotification r.1, r.2)
  else r

/-- Method `SetPaused`; `now` is the reading of the steady clock on resume. -/
def SetPaused (s : StateSnap) (pause : Bool) (now : Int) : StateSnap :=
  let s := { s with paused := pause }
  if ¬ pause then { s with lastSaveTime := now } else s

/-- Method `SaveNow`. -/
def SaveNow (fl : ℚ → ℚ) (s : StateSnap) (h : Host) (q : SaveQueries) : StateSnap × Host :=
  DoSave fl s h q

/-- Method `SetInterval`. -/
def SetInterval (s : StateSnap) (h : Host) (minutes : Int) (now : Int) (opened : Bool) :
    StateSnap × Host :=
  let minutes := if minutes < 1 then 1 else minutes
  let minutes := if minutes > 60 then 60 else minutes
  let s := { s with interval := minutes, lastSaveTime := now }
  (s, SaveConfig s h opened)

/-- Method `SetShowNotification`. -/
def SetShowNotification (s : StateSnap) (h : Host) (toShow : Bool) (opened : Bool) :
    StateSnap × Host :=
  let s := { s with showNotification := toShow }
  (s, SaveConfig s h opened)

/-- Method `GetSecondsUntilNextSave`; `now` is the reading of the steady clock. -/
def GetSecondsUntilNextSave (s : StateSnap) (now : Int) : Int :=
  if s.paused then -1
  else
    let elapsed := durationCastSeconds (now - s.lastSaveTime)
    let totalSeconds := s.interval * 60
    let remaining := totalSeconds - toInt32 elapsed
    if remaining > 0 then remaining else 0

/-- The countdown as the specification words it: `-1` when paused, otherwise
`max(0, interval*60 - elapsed)` with the real elapsed seconds, truncated after the `max`. -/
def specSecondsUntilNextSave (s : StateSnap) (now : Int) : Int :=
  if s.paused then -1
  else truncToInt (max 0 ((s.interval : ℚ) * 60 - ((now - s.lastSaveTime : Int) : ℚ) / 1000000000))

/-- One call of the frame callback by the host: simulation time, the steady-clock reading of
the check, and the query answers for a save. -/
structure Frame where
  simt : ℚ
  now : Int
  queries : SaveQueries

/-- The host calling `clbkPostStep` once per frame, in order. -/
def runFrames (fl : ℚ → ℚ) (start : StateSnap × Host) (frames : List Frame) :
    StateSnap × Host :=
  frames.foldl (fun r f => clbkPostStep fl r.1 r.2 f.simt f.now f.queries) start

/-- The `clamp(m, lo, hi)` of the specification. -/
def clamp (m lo hi : Int) : Int := max lo (min m hi)

end StateSnap

/-! ## Concrete states used in the examples -/

/-- A running, unpaused module with a one-minute interval whose last save was at tick 0. -/
def exampleState : StateSnap :=
  { interval := 1, paused := false, lastSaveTime := 0, showNotification := true,
    hNote := some [], notificationEndTime := 0 }

/-- A host that has stored nothing yet. -/
def exampleHost : Host := { scenarios := [], cfgFile := none }

/-- Query answers for a save on 2026-10-30 with vessel `Shuttle` focused, simulated time
2024-01-15T12:30:45 (as a `double`), steady clock at `steadyNow`, 100 s into the simulation. -/
def exampleQueries (steadyNow : Int) : SaveQueries :=
  { tmYear := 126, tmMon := 9, tmMday := 30, focusName := some "Shuttle".toList,
    simMJD := binary64 (60324 + 45045 / 86400), steadyNow := steadyNow, simTime := 100 }

/-- The date-time 2024-01-15T12:30:45. -/
def exampleDateTime : DateTime :=
  { year := 2024, month := 1, day := 15, hour := 12, min := 30, sec := 45 }

/-- The date-time 2024-01-15T12:30:47. -/
def laterDateTime : DateTime :=
  { year := 2024, month := 1, day := 15, hour := 12, min := 30, sec := 47 }

/-! ## Theorems -/

section Arithmetic

theorem ticksPerSecond_pos : 0 < ticksPerSecond := by decide

theorem durationCastSeconds_of_nonneg {d : Int} (hd : 0 ≤ d) :
    durationCastSeconds d = d / 1000000000 := by
  unfold durationCastSeconds ticksPerSecond
  exact Int.tdiv_eq_ediv hd (by decide)

theorem toInt32_of_inRange {x : Int} (h0 : -2147483648 ≤ x) (h1 : x < 2147483648) :
    toInt32 x = x := by
  unfold toInt32
  omega

end Arithmetic

namespace StateSnap

/-- Whether the frame callback at clock reading `now` finds the interval elapsed. -/
theorem due_iff (s : StateSnap) (now : Int) (hmono : s.lastSaveTime ≤ now) :
    durationCastSeconds (now - s.lastSaveTime) ≥ s.interval * 60 ↔
      s.interval * 60 * ticksPerSecond ≤ now - s.lastSaveTime := by
  rw [durationCastSeconds_of_nonneg (by omega)]
  unfold ticksPerSecond
  omega

theorem DoSave_scenarios (fl : ℚ → ℚ) (s : StateSnap) (h : Host) (q : SaveQueries) :
    (DoSave fl s h q).2 =
      { h with scenarios := (GenerateSaveFilename fl q, "StateSnap autosave".toList)
                  :: h.scenarios } := by
  unfold DoSave
  dsimp only
  split <;> rfl

theorem ShowSaveNotification_timer (fl : ℚ → ℚ) (s : StateSnap) (f : CStr) (t : ℚ) :
    (ShowSaveNotification fl s f t).lastSaveTime = s.lastSaveTime ∧
    (ShowSaveNotification fl s f t).interval = s.interval ∧
    (ShowSaveNotification fl s f t).paused = s.paused ∧
    (ShowSaveNotification fl s f t).showNotification = s.showNotification := by
  unfold ShowSaveNotification
  split <;> simp

theorem ClearNotification_timer (s : StateSnap) :
    (ClearNotification s).lastSaveTime = s.lastSaveTime ∧
    (ClearNotification s).interval = s.interval ∧
    (ClearNotification s).paused = s.paused ∧
    (ClearNotification s).showNotification = s.showNotification := by
  unfold ClearNotification
  split <;> simp

theorem DoSave_timer (fl : ℚ → ℚ) (s : StateSnap) (h : Host) (q : SaveQueries) :
    (DoSave fl s h q).1.lastSaveTime = q.steadyNow ∧
    (DoSave fl s h q).1.interval = s.interval ∧
    (DoSave fl s h q).1.paused = s.paused ∧
    (DoSave fl s h q).1.showNotification = s.showNotification := by
  unfold DoSave
  dsimp only
  split
  · have := ShowSaveNotification_timer fl { s with lastSaveTime := q.steadyNow }
      (GenerateSaveFilename fl q) q.simTime
    simpa using this
  · simp

/-- The frame callback when the timer fires: one `DoSave`, then the notification check. -/
theorem clbkPostStep_fired (fl : ℚ → ℚ) (s : StateSnap) (h : Host) (simt : ℚ) (now : Int)
    (q : SaveQueries) (hp : s.paused = false)
    (hd : durationCastSeconds (now - s.lastSaveTime) ≥ s.interval * 60) :
    (clbkPostStep fl s h simt now q).2 = (DoSave fl s h q).2 ∧
    ((clbkPostStep fl s h simt now q).1 = (DoSave fl s h q).1 ∨
     (clbkPostStep fl s h simt now q).1 = ClearNotification (DoSave fl s h q).1) := by
  unfold clbkPostStep
  simp only [hp, Bool.false_eq_true, not_false_eq_true, if_true, hd]
  split <;> simp

/-- The frame callback when the timer does not fire: only the notification check runs. -/
theorem clbkPostStep_idle (fl : ℚ → ℚ) (s : StateSnap) (h : Host) (simt : ℚ) (now : Int)
    (q : SaveQueries)
    (hd : ¬ (s.paused = false ∧ durationCastSeconds (now - s.lastSaveTime) ≥ s.interval * 60)) :
    clbkPostStep fl s h simt now q =
      (if s.notificationEndTime > 0 ∧ simt ≥ s.notificationEndTime
        then (ClearNotification s, h) else (s, h)) := by
  unfold clbkPostStep
  by_cases hp : s.paused = false
  · have hd2 : ¬ durationCastSeconds (now - s.lastSaveTime) ≥ s.interval * 60 :=
      fun hx => hd ⟨hp, hx⟩
    simp only [hp, Bool.false_eq_true, not_false_eq_true, if_true, hd2, if_false]
  · have hp2 : s.paused = true := by simpa using hp
    simp [hp2]

theorem clbkPostStep_idle_timer (fl : ℚ → ℚ) (s : StateSnap) (h : Host) (simt : ℚ) (now : Int)
    (q : SaveQueries)
    (hd : ¬ (s.paused = false ∧ durationCastSeconds (now - s.lastSaveTime) ≥ s.interval * 60)) :
    (clbkPostStep fl s h simt now q).2 = h ∧
    (clbkPostStep fl s h simt now q).1.lastSaveTime = s.lastSaveTime ∧
    (clbkPostStep fl s h simt now q).1.interval = s.interval ∧
    (clbkPostStep fl s h simt now q).1.paused = s.paused := by
  rw [clbkPostStep_idle fl s h simt now q hd]
  have hc := ClearNotification_timer s
  split
  · exact ⟨rfl, hc.1, hc.2.1, hc.2.2.1⟩
  · exact ⟨rfl, rfl, rfl, rfl⟩

theorem clbkPostStep_fired_timer (fl : ℚ → ℚ) (s : StateSnap) (h : Host) (simt : ℚ) (now : Int)
    (q : SaveQueries) (hp : s.paused = false)
    (hd : durationCastSeconds (now - s.lastSaveTime) ≥ s.interval * 60) :
    (clbkPostStep fl s h simt now q).2.scenarios =
      (GenerateSaveFilename fl q, "StateSnap autosave".toList) :: h.scenarios ∧
    (clbkPostStep fl s h simt now q).2.cfgFile = h.cfgFile ∧
    (clbkPostStep fl s h simt now q).1.lastSaveTime = q.steadyNow ∧
    (clbkPostStep fl s h simt now q).1.interval = s.interval ∧
    (clbkPostStep fl s h simt now q).1.paused = s.paused := by
  obtain ⟨h2, h1⟩ := clbkPostStep_fired fl s h simt now q hp hd
  have hs := DoSave_timer fl s h q
  have hc := ClearNotification_timer (DoSave fl s h q).1
  rw [h2, DoSave_scenarios]
  refine ⟨rfl, rfl, ?_⟩
  rcases h1 with h1 | h1 <;> rw [h1]
  · exact ⟨hs.1, hs.2.1, hs.2.2.1⟩
  · exact ⟨hc.1.trans hs.1, hc.2.1.trans hs.2.1, hc.2.2.1.trans hs.2.2.1⟩

theorem GetSecondsUntilNextSave_eq (s : StateSnap) (now : Int)
    (hmono : s.lastSaveTime ≤ now)
    (hrange : now - s.lastSaveTime < 2147483648 * ticksPerSecond) :
    GetSecondsUntilNextSave s now =
      if s.paused then -1 else max 0 (s.interval * 60 - (now - s.lastSaveTime) / ticksPerSecond) := by
  unfold GetSecondsUntilNextSave
  unfold ticksPerSecond at hrange ⊢
  rw [durationCastSeconds_of_nonneg (by omega)]
  dsimp only
  rw [toInt32_of_inRange (by omega) (by omega)]
  by_cases hp : s.paused = true
  · simp [hp]
  · simp only [hp, Bool.false_eq_true, if_false]
    split <;> omega

/-- C1 (amended): for a clock reading `now` not before `lastSaveTime`, the frame callback hands
the host one more scenario save exactly when the module is not paused and
`now - lastSaveTime` is at least `interval * 60` seconds.  When it does, exactly one save call is
added, `lastSaveTime` becomes the clock reading `DoSave` takes after the save call
(`q.steadyNow`), and `interval` and `paused` stay; when it does not, the host is untouched and
`lastSaveTime`, `interval` and `paused` stay.  The decision is the same for any other state with
the same `paused`, `interval` and elapsed time. -/
theorem C1_frame_save_decision (fl : ℚ → ℚ) (s : StateSnap) (h : Host) (simt : ℚ) (now : Int)
    (q : SaveQueries) (hmono : s.lastSaveTime ≤ now) :
    ((clbkPostStep fl s h simt now q).2.scenarios.length = h.scenarios.length + 1 ↔
      (s.paused = false ∧ s.interval * 60 * ticksPerSecond ≤ now - s.lastSaveTime)) ∧
    ((s.paused = false ∧ s.interval * 60 * ticksPerSecond ≤ now - s.lastSaveTime) →
      (clbkPostStep fl s h simt now q).2.scenarios =
          (GenerateSaveFilename fl q, "StateSnap autosave".toList) :: h.scenarios ∧
      (clbkPostStep fl s h simt now q).1.lastSaveTime = q.steadyNow ∧
      (clbkPostStep fl s h simt now q).1.interval = s.interval ∧
      (clbkPostStep fl s h simt now q).1.paused = s.paused) ∧
    (¬ (s.paused = false ∧ s.interval * 60 * ticksPerSecond ≤ now - s.lastSaveTime) →
      (clbkPostStep fl s h simt now q).2 = h ∧
      (clbkPostStep fl s h simt now q).1.lastSaveTime = s.lastSaveTime ∧
      (clbkPostStep fl s h simt now q).1.interval = s.interval ∧
      (clbkPostStep fl s h simt now q).1.paused = s.paused) ∧
    (∀ (s2 : StateSnap) (h2 : Host) (simt2 : ℚ) (now2 : Int) (q2 : SaveQueries),
      s2.paused = s.paused → s2.interval = s.interval → s2.lastSaveTime ≤ now2 →
      now2 - s2.lastSaveTime = now - s.lastSaveTime →
      ((clbkPostStep fl s2 h2 simt2 now2 q2).2.scenarios.length = h2.scenarios.length + 1 ↔
        (clbkPostStep fl s h simt now q).2.scenarios.length = h.scenarios.length + 1)) := by
  have key : ∀ (s : StateSnap) (h : Host) (simt : ℚ) (now : Int) (q : SaveQueries),
      s.lastSaveTime ≤ now →
      ((clbkPostStep fl s h simt now q).2.scenarios.length = h.scenarios.length + 1 ↔
        (s.paused = false ∧ s.interval * 60 * ticksPerSecond ≤ now - s.lastSaveTime)) := by
    intro s h simt now q hmono
    by_cases hd : s.paused = false ∧ s.interval * 60 * ticksPerSecond ≤ now - s.lastSaveTime
    · have hf := clbkPostStep_fired_timer fl s h simt now q hd.1 ((due_iff s now hmono).2 hd.2)
      simp [hf.1, hd]
    · have hi := clbkPostStep_idle_timer fl s h simt now q
        (fun hx => hd ⟨hx.1, (due_iff s now hmono).1 hx.2⟩)
      simp only [hi.1, hd, iff_false]
      omega
  refine ⟨key s h simt now q hmono, ?_, ?_, ?_⟩
  · intro hd
    have hf := clbkPostStep_fired_timer fl s h simt now q hd.1 ((due_iff s now hmono).2 hd.2)
    exact ⟨hf.1, hf.2.2.1, hf.2.2.2.1, hf.2.2.2.2⟩
  · intro hd
    exact clbkPostStep_idle_timer fl s h simt now q
      (fun hx => hd ⟨hx.1, (due_iff s now hmono).1 hx.2⟩)
  · intro s2 h2 simt2 now2 q2 hp hi hm he
    rw [key s2 h2 simt2 now2 q2 hm, key s h simt now q hmono, hp, hi, he]

/-- C1 at a concrete input: one minute after the last save the callback saves once and
`lastSaveTime` becomes the reading taken inside `DoSave`. -/
theorem C1_frame_save_decision_witness :
    exampleState.lastSaveTime ≤ 60000000000 ∧
    (clbkPostStep binary64 exampleState exampleHost 100 60000000000
        (exampleQueries 60000000123)).2.scenarios.length = exampleHost.scenarios.length + 1 ∧
    (clbkPostStep binary64 exampleState exampleHost 100 60000000000
        (exampleQueries 60000000123)).1.lastSaveTime = 60000000123 :=
  have hm : exampleState.lastSaveTime ≤ 60000000000 := by decide
  have hd : exampleState.paused = false ∧
      exampleState.interval * 60 * ticksPerSecond ≤ 60000000000 - exampleState.lastSaveTime := by
    decide
  have hc := C1_frame_save_decision binary64 exampleState exampleHost 100 60000000000
    (exampleQueries 60000000123) hm
  ⟨hm, hc.1.2 hd, (hc.2.1 hd).2.1⟩

/-- C1 as stated fails: the save is due at `now` = 60 s, `DoSave` reads the clock again after the
host has written the scenario (here at 61 s), and `lastSaveTime` is that later reading, not
`now`. -/
theorem C1_reset_to_now_counterexample :
    exampleState.lastSaveTime ≤ 60000000000 ∧
    (60000000000 : Int) ≤ (exampleQueries 61000000000).steadyNow ∧
    (clbkPostStep binary64 exampleState exampleHost 100 60000000000
        (exampleQueries 61000000000)).2.scenarios.length = exampleHost.scenarios.length + 1 ∧
    (clbkPostStep binary64 exampleState exampleHost 100 60000000000
        (exampleQueries 61000000000)).1.lastSaveTime ≠ 60000000000 := by
  have hf := clbkPostStep_fired_timer binary64 exampleState exampleHost 100 60000000000
    (exampleQueries 61000000000) rfl (by decide)
  refine ⟨by decide, by decide, ?_, ?_⟩
  · rw [hf.1]; rfl
  · rw [hf.2.2.1]; decide

/-- C2: after a resume at clock reading `t`, a frame callback at any `t'` with `t ≤ t'` and
`t' - t` below `interval * 60` seconds performs no save, whatever `lastSaveTime` was before the
resume; pausing sets the flag and keeps `lastSaveTime`. -/
theorem C2_resume_resets_baseline (fl : ℚ → ℚ) (s : StateSnap) (h : Host) (simt : ℚ)
    (t t' : Int) (q : SaveQueries) (hle : t ≤ t')
    (hlt : t' - t < s.interval * 60 * ticksPerSecond) :
    (SetPaused s false t).paused = false ∧
    (SetPaused s false t).lastSaveTime = t ∧
    (clbkPostStep fl (SetPaused s false t) h simt t' q).2 = h ∧
    (clbkPostStep fl (SetPaused s false t) h simt t' q).1.lastSaveTime = t ∧
    (SetPaused s true t).paused = true ∧
    (SetPaused s true t).lastSaveTime = s.lastSaveTime := by
  have h1 : (SetPaused s false t).lastSaveTime = t := by simp [SetPaused]
  have h2 : (SetPaused s false t).interval = s.interval := by simp [SetPaused]
  have hi := clbkPostStep_idle_timer fl (SetPaused s false t) h simt t' q (by
    intro hx
    have := (due_iff (SetPaused s false t) t' (by rw [h1]; exact hle)).1 hx.2
    rw [h1, h2] at this
    omega)
  refine ⟨by simp [SetPaused], h1, hi.1, hi.2.1.trans h1, by simp [SetPaused], by simp [SetPaused]⟩

/-- C2 at a concrete input: paused for a long time (last save at tick 0), resumed at 1000 s,
frame callback 59.9 s later. -/
theorem C2_resume_resets_baseline_witness :
    (clbkPostStep binary64 (SetPaused { exampleState with paused := true } false 1000000000000)
        exampleHost 100 1059900000000 (exampleQueries 1059900000000)).2 = exampleHost :=
  (C2_resume_resets_baseline binary64 { exampleState with paused := true } exampleHost 100
    1000000000000 1059900000000 (exampleQueries 1059900000000) (by decide) (by decide)).2.2.1

/-- C3: `SaveNow` hands the host exactly one scenario save (the generated file name with the
fixed description), whatever the paused flag and the elapsed time; it sets `lastSaveTime` to the
clock reading of the call and keeps `paused`, `interval`, `showNotification` and the config
file. -/
theorem C3_saveNow_unconditional (fl : ℚ → ℚ) (s : StateSnap) (h : Host) (q : SaveQueries) :
    (SaveNow fl s h q).2.scenarios =
        (GenerateSaveFilename fl q, "StateSnap autosave".toList) :: h.scenarios ∧
    (SaveNow fl s h q).2.scenarios.length = h.scenarios.length + 1 ∧
    (SaveNow fl s h q).2.cfgFile = h.cfgFile ∧
    (SaveNow fl s h q).1.lastSaveTime = q.steadyNow ∧
    (SaveNow fl s h q).1.paused = s.paused ∧
    (SaveNow fl s h q).1.interval = s.interval ∧
    (SaveNow fl s h q).1.showNotification = s.showNotification := by
  have hs := DoSave_timer fl s h q
  unfold SaveNow
  rw [DoSave_scenarios]
  exact ⟨rfl, rfl, rfl, hs.1, hs.2.2.1, hs.2.1, hs.2.2.2⟩

/-- C4 (amended): for a clock reading `now` not before `lastSaveTime` and less than `2 ^ 31`
seconds after it, `GetSecondsUntilNextSave` returns `-1` when paused and otherwise
`max(0, interval*60 - e)` where `e` is the elapsed time truncated to whole seconds before the
subtraction; measured against the real elapsed time this is the remaining time rounded up, not
down. -/
theorem C4_countdown_value (s : StateSnap) (now : Int) (hmono : s.lastSaveTime ≤ now)
    (hrange : now - s.lastSaveTime < 2147483648 * ticksPerSecond) :
    GetSecondsUntilNextSave s now =
      (if s.paused then -1
        else max 0 (s.interval * 60 - (now - s.lastSaveTime) / ticksPerSecond)) ∧
    (s.paused = false →
      GetSecondsUntilNextSave s now =
        ⌈max (0 : ℚ) ((s.interval : ℚ) * 60
            - ((now - s.lastSaveTime : Int) : ℚ) / (ticksPerSecond : ℚ))⌉) := by
  refine ⟨GetSecondsUntilNextSave_eq s now hmono hrange, ?_⟩
  intro hp
  rw [GetSecondsUntilNextSave_eq s now hmono hrange]
  simp only [hp, Bool.false_eq_true, if_false]
  have hfl : ⌊((now - s.lastSaveTime : Int) : ℚ) / (ticksPerSecond : ℚ)⌋
      = (now - s.lastSaveTime) / ticksPerSecond := by
    have := Rat.floor_intCast_div_natCast (now - s.lastSaveTime) 1000000000
    simpa [ticksPerSecond] using this
  have hceil : ⌈(s.interval : ℚ) * 60
      - ((now - s.lastSaveTime : Int) : ℚ) / (ticksPerSecond : ℚ)⌉
      = s.interval * 60 - (now - s.lastSaveTime) / ticksPerSecond := by
    rw [← hfl]
    have h1 : (s.interval : ℚ) * 60 = ((s.interval * 60 : Int) : ℚ) := by push_cast; ring
    rw [h1, sub_eq_add_neg, add_comm, Int.ceil_add_int, Int.ceil_neg]
    ring
  rw [← hceil]
  have hmax := (Int.ceil_mono (α := ℚ)).map_max (a := (0 : ℚ))
    (b := (s.interval : ℚ) * 60 - ((now - s.lastSaveTime : Int) : ℚ) / (ticksPerSecond : ℚ))
  rw [hmax]
  simp

/-- C4 at a concrete input: 59.5 s left of a one-minute interval shows as 60. -/
theorem C4_countdown_value_witness :
    GetSecondsUntilNextSave exampleState 500000000 = 60 :=
  ((C4_countdown_value exampleState 500000000 (by decide) (by decide)).1).trans (by decide)

/-- C4 as stated fails: half a second after a save with a one-minute interval the remaining
time is 59.5 s; truncating that gives 59, the code returns 60. -/
theorem C4_truncation_counterexample :
    exampleState.lastSaveTime ≤ 500000000 ∧
    exampleState.paused = false ∧
    specSecondsUntilNextSave exampleState 500000000 = 59 ∧
    GetSecondsUntilNextSave exampleState 500000000 = 60 := by
  refine ⟨by decide, rfl, ?_, by decide⟩
  decide!

theorem GetSecondsUntilNextSave_at_reset (s : StateSnap) (hp : s.paused = false)
    (hlo : 1 ≤ s.interval) : GetSecondsUntilNextSave s s.lastSaveTime = s.interval * 60 := by
  rw [GetSecondsUntilNextSave_eq s s.lastSaveTime (le_refl _) (by simp [ticksPerSecond])]
  simp only [hp, Bool.false_eq_true, if_false, sub_self, Int.zero_ediv, sub_zero]
  omega

/-- C5 (amended): for an unpaused timer state (interval at least 1): (1) between two clock
readings `t1 ≤ t2` taken with the state unchanged, both not before `lastSaveTime` and less than
`2 ^ 31` seconds after it, the countdown does not increase; (2) read at the instant of the
reset, right after `SaveNow`, after a frame callback that saved, or after `SetInterval`, the
countdown equals the stored interval times 60. -/
theorem C5_countdown_monotone_and_reset (s : StateSnap) (hp : s.paused = false)
    (hlo : 1 ≤ s.interval) :
    (∀ t1 t2 : Int, s.lastSaveTime ≤ t1 → t1 ≤ t2 →
      t2 - s.lastSaveTime < 2147483648 * ticksPerSecond →
      GetSecondsUntilNextSave s t2 ≤ GetSecondsUntilNextSave s t1) ∧
    (∀ (fl : ℚ → ℚ) (h : Host) (q : SaveQueries),
      GetSecondsUntilNextSave (SaveNow fl s h q).1 q.steadyNow
        = (SaveNow fl s h q).1.interval * 60) ∧
    (∀ (fl : ℚ → ℚ) (h : Host) (simt : ℚ) (now : Int) (q : SaveQueries),
      s.lastSaveTime ≤ now → s.interval * 60 * ticksPerSecond ≤ now - s.lastSaveTime →
      GetSecondsUntilNextSave (clbkPostStep fl s h simt now q).1 q.steadyNow
        = (clbkPostStep fl s h simt now q).1.interval * 60) ∧
    (∀ (h : Host) (m now : Int) (opened : Bool),
      GetSecondsUntilNextSave (SetInterval s h m now opened).1 now
        = (SetInterval s h m now opened).1.interval * 60 ∧
      1 ≤ (SetInterval s h m now opened).1.interval ∧
      (SetInterval s h m now opened).1.interval ≤ 60) := by
  refine ⟨?_, ?_, ?_, ?_⟩
  · intro t1 t2 h1 h12 hr
    rw [GetSecondsUntilNextSave_eq s t2 (by omega) hr,
      GetSecondsUntilNextSave_eq s t1 h1 (by omega)]
    simp only [hp, Bool.false_eq_true, if_false]
    unfold ticksPerSecond
    omega
  · intro fl h q
    have hs := DoSave_timer fl s h q
    have := GetSecondsUntilNextSave_at_reset (SaveNow fl s h q).1
      (by unfold SaveNow; rw [hs.2.2.1, hp]) (by unfold SaveNow; rw [hs.2.1]; exact hlo)
    unfold SaveNow at this ⊢
    rwa [hs.1] at this
  · intro fl h simt now q hm hd
    have hf := clbkPostStep_fired_timer fl s h simt now q hp ((due_iff s now hm).2 hd)
    have := GetSecondsUntilNextSave_at_reset (clbkPostStep fl s h simt now q).1
      (by rw [hf.2.2.2.2, hp]) (by rw [hf.2.2.2.1]; exact hlo)
    rwa [hf.2.2.1] at this
  · intro h m now opened
    have hi : 1 ≤ (SetInterval s h m now opened).1.interval ∧
        (SetInterval s h m now opened).1.interval ≤ 60 := by
      simp only [SetInterval]
      constructor <;> split <;> split <;> omega
    have := GetSecondsUntilNextSave_at_reset (SetInterval s h m now opened).1
      (by simp [SetInterval, hp]) hi.1
    have hl : (SetInterval s h m now opened).1.lastSaveTime = now := by simp [SetInterval]
    rw [hl] at this
    exact ⟨this, hi⟩

/-- C5 at a concrete input: with a one-minute interval the countdown falls from 50 to 20 between
the readings at 10 s and 40 s, and shows 60 right after a manual save. -/
theorem C5_countdown_monotone_and_reset_witness :
    GetSecondsUntilNextSave exampleState 40000000000
        ≤ GetSecondsUntilNextSave exampleState 10000000000 ∧
    GetSecondsUntilNextSave
        (SaveNow binary64 exampleState exampleHost (exampleQueries 70000000000)).1 70000000000
      = (SaveNow binary64 exampleState exampleHost (exampleQueries 70000000000)).1.interval * 60 :=
  have hc := C5_countdown_monotone_and_reset exampleState rfl (by decide)
  ⟨hc.1 10000000000 40000000000 (by decide) (by decide) (by decide),
    hc.2.1 binary64 exampleHost (exampleQueries 70000000000)⟩

/-- C5 as stated fails for readings `2 ^ 31` seconds or more after the last save: the elapsed
seconds are narrowed to `int` before the subtraction, so with a one-minute interval and the
state unchanged the countdown is 0 at 2147483647 s and 2147483647 at 2147483709 s. -/
theorem C5_narrowing_counterexample :
    exampleState.paused = false ∧
    exampleState.lastSaveTime ≤ 2147483647000000000 ∧
    (2147483647000000000 : Int) ≤ 2147483709000000000 ∧
    GetSecondsUntilNextSave exampleState 2147483647000000000 = 0 ∧
    GetSecondsUntilNextSave exampleState 2147483709000000000 = 2147483647 ∧
    ¬ (GetSecondsUntilNextSave exampleState 2147483709000000000
        ≤ GetSecondsUntilNextSave exampleState 2147483647000000000) := by
  refine ⟨rfl, by decide, by decide, by decide, by decide, by decide⟩

/-- C6: for every integer `m`, `SetInterval m` stores `clamp(m, 1, 60)`, which lies in
`[1, 60]`, sets `lastSaveTime` to the clock reading of the call, keeps `paused` and
`showNotification`, performs no save, and (the config file opening for output) leaves a config
file from which `Interval` reads back as the clamped value. -/
theorem C6_setInterval_clamps (s : StateSnap) (h : Host) (m now : Int) (opened : Bool) :
    (SetInterval s h m now opened).1.interval = clamp m 1 60 ∧
    1 ≤ (SetInterval s h m now opened).1.interval ∧
    (SetInterval s h m now opened).1.interval ≤ 60 ∧
    (SetInterval s h m now opened).1.lastSaveTime = now ∧
    (SetInterval s h m now opened).1.paused = s.paused ∧
    (SetInterval s h m now opened).1.showNotification = s.showNotification ∧
    (SetInterval s h m now opened).2.scenarios = h.scenarios ∧
    (SetInterval s h m now true).2.cfgFile =
      some [("Interval", CfgValue.int (clamp m 1 60)),
            ("ShowNotification", CfgValue.bool s.showNotification)] ∧
    ((SetInterval s h m now true).2.cfgFile.bind fun f => oapiReadItem_int f "Interval")
      = some (clamp m 1 60) := by
  have hi : (if (if m < 1 then 1 else m) > 60 then 60 else (if m < 1 then 1 else m))
      = clamp m 1 60 := by
    unfold clamp
    split <;> split <;> omega
  have hc : 1 ≤ clamp m 1 60 ∧ clamp m 1 60 ≤ 60 := by
    unfold clamp
    omega
  have hs : (SetInterval s h m now opened).2.scenarios = h.scenarios := by
    cases opened <;> simp [SetInterval, SaveConfig]
  refine ⟨?_, ?_, ?_, ?_, ?_, ?_, hs, ?_, ?_⟩
  · simp only [SetInterval, hi]
  · simp only [SetInterval, hi]; exact hc.1
  · simp only [SetInterval, hi]; exact hc.2
  · simp [SetInterval]
  · simp [SetInterval]
  · simp [SetInterval]
  · simp only [SetInterval, SaveConfig, hi, oapiWriteItem_int, oapiWriteItem_bool]
    rfl
  · simp only [SetInterval, SaveConfig, hi, oapiWriteItem_int, oapiWriteItem_bool]
    simp [oapiReadItem_int, List.lookup]

/-- C7: constructing the module on a config file whose `Interval` reads as an integer outside
`[1, 60]` gives interval 10; without a file the interval is 10 and `showNotification` is true;
without a readable `Interval` item the interval is 10, without a readable `ShowNotification`
item `showNotification` is true; an `Interval` value inside `[1, 60]` is taken over, and so is
a `ShowNotification` value. -/
theorem C7_load_defaults (now : Int) :
    (∀ (f : CfgFile) (v : Int), oapiReadItem_int f "Interval" = some v → (v < 1 ∨ 60 < v) →
      (new now (some f)).interval = 10) ∧
    ((new now none).interval = 10 ∧ (new now none).showNotification = true) ∧
    (∀ f : CfgFile, oapiReadItem_int f "Interval" = none → (new now (some f)).interval = 10) ∧
    (∀ f : CfgFile, oapiReadItem_bool f "ShowNotification" = none →
      (new now (some f)).showNotification = true) ∧
    (∀ (f : CfgFile) (v : Int), oapiReadItem_int f "Interval" = some v → 1 ≤ v → v ≤ 60 →
      (new now (some f)).interval = v) ∧
    (∀ (f : CfgFile) (b : Bool), oapiReadItem_bool f "ShowNotification" = some b →
      (new now (some f)).showNotification = b) := by
  refine ⟨?_, ⟨rfl, rfl⟩, ?_, ?_, ?_, ?_⟩
  · intro f v hv hout
    have hn : ¬ (v ≥ 1 ∧ v ≤ 60) := by omega
    simp only [new, LoadConfig, hv, hn, if_false]
    split <;> rfl
  · intro f hv
    simp only [new, LoadConfig, hv]
    split <;> rfl
  · intro f hb
    simp only [new, LoadConfig, hb]
    split
    · split <;> rfl
    · rfl
  · intro f v hv h1 h2
    have hn : v ≥ 1 ∧ v ≤ 60 := ⟨h1, h2⟩
    simp only [new, LoadConfig, hv, hn, and_self, if_true]
    split <;> rfl
  · intro f b hb
    simp only [new, LoadConfig, hb]

/-- C7 at concrete files: `Interval = 0` and `Interval = 99` load as 10, `Interval = 15` as
15. -/
theorem C7_load_defaults_witness :
    (new 0 (some [("Interval", CfgValue.int 0)])).interval = 10 ∧
    (new 0 (some [("Interval", CfgValue.int 99), ("ShowNotification", CfgValue.bool false)])).interval
      = 10 ∧
    (new 0 (some [("Interval", CfgValue.int 15)])).interval = 15 :=
  ⟨(C7_load_defaults 0).1 [("Interval", CfgValue.int 0)] 0 (by decide) (by decide),
   (C7_load_defaults 0).1
      [("Interval", CfgValue.int 99), ("ShowNotification", CfgValue.bool false)] 99
      (by decide) (by decide),
   (C7_load_defaults 0).2.2.2.2.1 [("Interval", CfgValue.int 15)] 15 (by decide) (by decide)
      (by decide)⟩

/-- C8: for settings with the interval in `[1, 60]`, `SaveConfig` (the file opening for output)
followed by constructing a fresh module on the stored file gives back the same interval and
`showNotification`; the stored file holds exactly the two items, and saving again leaves the
same host state as saving once. -/
theorem C8_config_round_trip (s : StateSnap) (h : Host) (now : Int) (hlo : 1 ≤ s.interval)
    (hhi : s.interval ≤ 60) :
    (new now (SaveConfig s h true).cfgFile).interval = s.interval ∧
    (new now (SaveConfig s h true).cfgFile).showNotification = s.showNotification ∧
    (SaveConfig s h true).cfgFile =
      some [("Interval", CfgValue.int s.interval),
            ("ShowNotification", CfgValue.bool s.showNotification)] ∧
    SaveConfig s (SaveConfig s h true) true = SaveConfig s h true := by
  have hn : s.interval ≥ 1 ∧ s.interval ≤ 60 := ⟨hlo, hhi⟩
  refine ⟨?_, ?_, rfl, rfl⟩
  · simp [new, LoadConfig, SaveConfig, oapiWriteItem_int, oapiWriteItem_bool, oapiReadItem_int,
      oapiReadItem_bool, List.lookup, hn]
  · simp [new, LoadConfig, SaveConfig, oapiWriteItem_int, oapiWriteItem_bool, oapiReadItem_int,
      oapiReadItem_bool, List.lookup, hn]

/-- C8 at a concrete input: interval 25 with notifications off survives the round trip. -/
theorem C8_config_round_trip_witness :
    (new 0 (SaveConfig { exampleState with interval := 25, showNotification := false }
        exampleHost true).cfgFile).interval = 25 ∧
    (new 0 (SaveConfig { exampleState with interval := 25, showNotification := false }
        exampleHost true).cfgFile).showNotification = false :=
  have hc := C8_config_round_trip { exampleState with interval := 25, showNotification := false }
    exampleHost 0 (by decide) (by decide)
  ⟨hc.1, hc.2.1⟩

end StateSnap

section Rounding

theorem log2Fuel_spec (fuel n : Nat) (hf : n ≤ fuel) (hn : n ≠ 0) :
    2 ^ log2Fuel fuel n ≤ n ∧ n < 2 ^ (log2Fuel fuel n + 1) := by
  induction fuel generalizing n with
  | zero => omega
  | succ f ih =>
    unfold log2Fuel
    split
    · have h2 := ih (n / 2) (by omega) (by omega)
      rw [pow_succ, pow_succ]
      omega
    · simp
      omega

theorem floorLog2_spec {n : Nat} (hn : n ≠ 0) :
    2 ^ floorLog2 n ≤ n ∧ n < 2 ^ (floorLog2 n + 1) :=
  log2Fuel_spec n n (le_refl n) hn

theorem ilog2_le {x : ℚ} (hx : x ≠ 0) : (2 : ℚ) ^ ilog2 x ≤ |x| := by
  unfold ilog2
  dsimp only
  split
  · assumption
  · have hn : x.num.natAbs ≠ 0 := by
      simpa using hx
    have hd : x.den ≠ 0 := x.den_nz
    have h1 : ((2 : ℚ) ^ (floorLog2 x.num.natAbs)) ≤ (x.num.natAbs : ℚ) := by
      exact_mod_cast (floorLog2_spec hn).1
    have h2 : (x.den : ℚ) ≤ (2 : ℚ) ^ (floorLog2 x.den + 1) := by
      exact_mod_cast (floorLog2_spec hd).2.le
    have hden : (0 : ℚ) < x.den := by exact_mod_cast Nat.pos_of_ne_zero hd
    have habs : |x| = (x.num.natAbs : ℚ) / (x.den : ℚ) := by
      conv_lhs => rw [← Rat.num_div_den x]
      rw [abs_div, Nat.abs_cast, Nat.cast_natAbs, Int.cast_abs]
    have hpow : (2 : ℚ) ^ ((floorLog2 x.num.natAbs : Int) - (floorLog2 x.den : Int) - 1)
        = (2 : ℚ) ^ (floorLog2 x.num.natAbs) / (2 : ℚ) ^ (floorLog2 x.den + 1) := by
      rw [show ((floorLog2 x.num.natAbs : Int) - (floorLog2 x.den : Int) - 1)
        = (floorLog2 x.num.natAbs : Int) - ((floorLog2 x.den + 1 : Nat) : Int) by push_cast; ring]
      rw [zpow_sub₀ (by norm_num), zpow_natCast, zpow_natCast]
    rw [hpow, habs]
    exact div_le_div₀ (by positivity) h1 hden h2

theorem floor_le_roundHalfEven (q : ℚ) : ⌊q⌋ ≤ roundHalfEven q := by
  unfold roundHalfEven
  dsimp only
  split
  · exact le_refl _
  · split
    · omega
    · split <;> omega

theorem binary64_pos {x : ℚ} (hx : 1 ≤ x) : 0 < binary64 x := by
  have hx0 : x ≠ 0 := by linarith
  have hxa : |x| = x := abs_of_pos (by linarith)
  unfold binary64
  rw [if_neg hx0]
  dsimp only
  have hp : ∀ e : Int, (0 : ℚ) < (2 : ℚ) ^ e := fun e => zpow_pos (by norm_num) e
  have hle : (2 : ℚ) ^ (max (ilog2 x - 52) (-1074)) ≤ x := by
    rcases max_cases (ilog2 x - 52) (-1074) with ⟨h, _⟩ | ⟨h, _⟩
    · rw [h]
      calc (2 : ℚ) ^ (ilog2 x - 52) ≤ (2 : ℚ) ^ ilog2 x :=
            zpow_le_zpow_right₀ (by norm_num) (by omega)
        _ ≤ x := by simpa [hxa] using ilog2_le hx0
    · rw [h]
      calc (2 : ℚ) ^ (-1074 : Int) ≤ (2 : ℚ) ^ (0 : Int) :=
            zpow_le_zpow_right₀ (by norm_num) (by omega)
        _ ≤ x := by simpa using hx
  have h1 : (1 : ℚ) ≤ x / (2 : ℚ) ^ (max (ilog2 x - 52) (-1074)) := by
    rw [le_div_iff₀ (hp _)]
    simpa using hle
  have hfl : (1 : Int) ≤ ⌊x / (2 : ℚ) ^ (max (ilog2 x - 52) (-1074))⌋ := by
    rw [Int.le_floor]
    simpa using h1
  have hr := floor_le_roundHalfEven (x / (2 : ℚ) ^ (max (ilog2 x - 52) (-1074)))
  refine mul_pos ?_ (hp _)
  exact_mod_cast lt_of_lt_of_le Int.zero_lt_one (le_trans hfl hr)

end Rounding

namespace StateSnap

theorem snprintf_saved_ne_nil (name : CStr) :
    snprintf 256 ("StateSnap: Saved ".toList ++ name) ≠ [] := by
  simp [snprintf]

theorem DoSave_notify_on (fl : ℚ → ℚ) (s : StateSnap) (h : Host) (q : SaveQueries) (txt : CStr)
    (hshow : s.showNotification = true) (hrun : s.hNote = some txt) :
    (DoSave fl s h q).1.hNote
        = some (snprintf 256 ("StateSnap: Saved ".toList ++ GenerateSaveFilename fl q)) ∧
    (DoSave fl s h q).1.notificationEndTime = fl (q.simTime + NOTIFICATION_DURATION) := by
  unfold DoSave
  simp [hshow, ShowSaveNotification, hrun]

theorem DoSave_notify_off (fl : ℚ → ℚ) (s : StateSnap) (h : Host) (q : SaveQueries)
    (hshow : s.showNotification = false) :
    (DoSave fl s h q).1.hNote = s.hNote ∧
    (DoSave fl s h q).1.notificationEndTime = s.notificationEndTime := by
  unfold DoSave
  simp [hshow]

/-- Frames in which neither the timer fires nor the notification is due for clearing leave
module and host as they are. -/
theorem runFrames_quiet (fl : ℚ → ℚ) (u : StateSnap) (h : Host) (frames : List Frame)
    (hidle : ∀ f ∈ frames,
      ¬ (u.paused = false ∧ durationCastSeconds (f.now - u.lastSaveTime) ≥ u.interval * 60))
    (hkeep : ∀ f ∈ frames, ¬ (u.notificationEndTime > 0 ∧ f.simt ≥ u.notificationEndTime)) :
    runFrames fl (u, h) frames = (u, h) := by
  induction frames with
  | nil => rfl
  | cons f rest ih =>
    have h1 : clbkPostStep fl u h f.simt f.now f.queries = (u, h) := by
      rw [clbkPostStep_idle fl u h f.simt f.now f.queries (hidle f (List.mem_cons_self _ _))]
      rw [if_neg (hkeep f (List.mem_cons_self _ _))]
    have ih2 := ih (fun g hg => hidle g (List.mem_cons_of_mem _ hg))
      (fun g hg => hkeep g (List.mem_cons_of_mem _ hg))
    unfold runFrames at ih2 ⊢
    rw [List.foldl_cons]
    dsimp only
    rw [h1]
    exact ih2

theorem runFrames_append (fl : ℚ → ℚ) (r : StateSnap × Host) (xs ys : List Frame) :
    runFrames fl r (xs ++ ys) = runFrames fl (runFrames fl r xs) ys := by
  unfold runFrames
  rw [List.foldl_append]

/-- C10: in a running simulation (annotation handle present) a save at simulation time
`q.simTime ≥ 0` with notifications enabled shows a non-empty message and sets
`notificationEndTime` to the `double` sum `q.simTime + 3.0`.  Over the following frame callbacks
that do not save again: while the simulation time is below `notificationEndTime` message and end
time stay; the first callback with simulation time at or past it empties the message and sets
`notificationEndTime` to 0; every later callback leaves the message empty.  A save with
notifications disabled changes neither the message nor `notificationEndTime`. -/
theorem C10_notification_lifecycle (s : StateSnap) (h : Host) (q : SaveQueries) (txt : CStr)
    (before : List Frame) (expiry : Frame) (later : List Frame)
    (hrun : s.hNote = some txt) (hsim : 0 ≤ q.simTime)
    (hidle : ∀ f ∈ before ++ expiry :: later,
      ¬ (s.paused = false ∧ durationCastSeconds (f.now - q.steadyNow) ≥ s.interval * 60))
    (hbefore : ∀ f ∈ before, f.simt < binary64 (q.simTime + NOTIFICATION_DURATION))
    (hexpiry : expiry.simt ≥ binary64 (q.simTime + NOTIFICATION_DURATION)) :
    (s.showNotification = true →
      ∃ msg : CStr, msg ≠ [] ∧
        (DoSave binary64 s h q).1.hNote = some msg ∧
        (DoSave binary64 s h q).1.notificationEndTime
          = binary64 (q.simTime + NOTIFICATION_DURATION) ∧
        (runFrames binary64 (DoSave binary64 s h q) before).1.hNote = some msg ∧
        (runFrames binary64 (DoSave binary64 s h q) before).1.notificationEndTime
          = binary64 (q.simTime + NOTIFICATION_DURATION) ∧
        (runFrames binary64 (DoSave binary64 s h q) (before ++ [expiry])).1.hNote = some [] ∧
        (runFrames binary64 (DoSave binary64 s h q) (before ++ [expiry])).1.notificationEndTime
          = 0 ∧
        (runFrames binary64 (DoSave binary64 s h q) (before ++ expiry :: later)).1.hNote
          = some [] ∧
        (runFrames binary64 (DoSave binary64 s h q)
          (before ++ expiry :: later)).1.notificationEndTime = 0) ∧
    (s.showNotification = false →
      (DoSave binary64 s h q).1.hNote = s.hNote ∧
      (DoSave binary64 s h q).1.notificationEndTime = s.notificationEndTime) := by
  refine ⟨?_, DoSave_notify_off binary64 s h q⟩
  intro hshow
  obtain ⟨hmsg, hend⟩ := DoSave_notify_on binary64 s h q txt hshow hrun
  have ht := DoSave_timer binary64 s h q
  have hpos : 0 < binary64 (q.simTime + NOTIFICATION_DURATION) :=
    binary64_pos (by unfold NOTIFICATION_DURATION; linarith)
  -- the state right after the save
  generalize hu : DoSave binary64 s h q = r at hmsg hend ht
  obtain ⟨u, hu2⟩ := r
  simp only at hmsg hend ht
  have hidle2 : ∀ f ∈ before ++ expiry :: later,
      ¬ (u.paused = false ∧ durationCastSeconds (f.now - u.lastSaveTime) ≥ u.interval * 60) := by
    intro f hf
    rw [ht.1, ht.2.1, ht.2.2.1]
    exact hidle f hf
  have hq1 : runFrames binary64 (u, hu2) before = (u, hu2) :=
    runFrames_quiet binary64 u hu2 before
      (fun f hf => hidle2 f (List.mem_append_left _ hf))
      (fun f hf hx => absurd hx.2 (by rw [hend]; exact not_le.2 (hbefore f hf)))
  have hex : clbkPostStep binary64 u hu2 expiry.simt expiry.now expiry.queries
      = (ClearNotification u, hu2) := by
    rw [clbkPostStep_idle binary64 u hu2 expiry.simt expiry.now expiry.queries
      (hidle2 expiry (List.mem_append_right _ (List.mem_cons_self _ _)))]
    rw [if_pos ⟨by rw [hend]; exact hpos, by rw [hend]; exact hexpiry⟩]
  have hq2 : runFrames binary64 (u, hu2) (before ++ [expiry]) = (ClearNotification u, hu2) := by
    rw [runFrames_append, hq1]
    simpa [runFrames] using hex
  have hc := ClearNotification_timer u
  have hcn : (ClearNotification u).hNote = some [] ∧
      (ClearNotification u).notificationEndTime = 0 := by
    simp [ClearNotification, hmsg]
  have hq3 : runFrames binary64 (u, hu2) (before ++ expiry :: later)
      = (ClearNotification u, hu2) := by
    rw [show before ++ expiry :: later = (before ++ [expiry]) ++ later by simp,
      runFrames_append, hq2]
    refine runFrames_quiet binary64 (ClearNotification u) hu2 later ?_ ?_
    · intro f hf
      rw [hc.1, hc.2.1, hc.2.2.1]
      exact hidle2 f (List.mem_append_right _ (List.mem_cons_of_mem _ hf))
    · intro f _ hx
      rw [hcn.2] at hx
      exact lt_irrefl _ hx.1
  refine ⟨_, snprintf_saved_ne_nil (GenerateSaveFilename binary64 q), hmsg, hend, ?_, ?_, ?_, ?_,
    ?_, ?_⟩
  · rw [hq1]; exact hmsg
  · rw [hq1]; exact hend
  · rw [hq2]; exact hcn.1
  · rw [hq2]; exact hcn.2
  · rw [hq3]; exact hcn.1
  · rw [hq3]; exact hcn.2

end StateSnap

namespace StateSnap

/-- C10 at a concrete run: a save 100 s into the simulation with notifications on, then frames at
101 s, 103 s and 104 s of simulation time, none of them a minute after the save: the message is
empty after the frame at 103 s and stays empty. -/
theorem C10_notification_lifecycle_witness :
    (runFrames binary64 (DoSave binary64 exampleState exampleHost (exampleQueries 0))
      ([{ simt := 101, now := 1000000000, queries := exampleQueries 0 }]
        ++ { simt := 103, now := 2000000000, queries := exampleQueries 0 }
        :: [{ simt := 104, now := 3000000000, queries := exampleQueries 0 }])).1.hNote = some [] :=
  ((C10_notification_lifecycle exampleState exampleHost (exampleQueries 0) []
      [{ simt := 101, now := 1000000000, queries := exampleQueries 0 }]
      { simt := 103, now := 2000000000, queries := exampleQueries 0 }
      [{ simt := 104, now := 3000000000, queries := exampleQueries 0 }]
      rfl (by decide!) (by decide!) (by decide!) (by decide!)).1 rfl).elim
    fun _ hm => hm.2.2.2.2.2.2.2.1

end StateSnap

section Calendar

theorem meeus_core (Z α A B C D u v s t k : Int)
    (hv0 : 0 ≤ v) (hv1 : v < 4) (hs0 : 0 ≤ s) (hs1 : s < 25) (ht0 : 0 ≤ t) (ht1 : t < 4)
    (hk0 : 0 ≤ k) (hk1 : k ≤ 365) (hk2 : k = 365 → t = 3 ∧ (s ≠ 24 ∨ v = 3))
    (hZ : Z = 1721120 + 146097 * u + 36524 * v + 1461 * s + 365 * t + k)
    (hα : α = (4 * Z - 7468865) / 146097)
    (hA : A = Z + 1 + α - α / 4)
    (hB : B = A + 1524)
    (hC : C = (20 * B - 2442) / 7305)
    (hD : D = 1461 * C / 4) :
    α = 4 * u + v - 4 ∧ C = 400 * u + 100 * v + 4 * s + t + 4716 ∧ B - D = 123 + k := by
  have h2 : α = 4 * u + v - 4 := by omega
  have h3 : B = 146100 * u + 36525 * v + 1461 * s + 365 * t + k + 1722642 := by omega
  have h4 : C = 400 * u + 100 * v + 4 * s + t + 4716 := by omega
  have h5 : D = 146100 * u + 36525 * v + 1461 * s + 365 * t + 1722519 := by omega
  omega

/-- Meeus' date for the day `k` days after 1 March of the March-based year `y'`. -/
theorem meeusDate_marchBased (Z y' k : Int) (hk0 : 0 ≤ k) (hk1 : k ≤ 365)
    (hk2 : k = 365 → (y' + 1) % 4 = 0 ∧ ((y' + 1) % 100 ≠ 0 ∨ (y' + 1) % 400 = 0))
    (hZ : Z = 1721120 + 365 * y' + y' / 4 - y' / 100 + y' / 400 + k) :
    meeusDate Z =
      (if 10000 * (123 + k) / 306001 < 14 ∧ 10000 * (123 + k) / 306001 - 1 > 2
          then y' else y' + 1,
        if 10000 * (123 + k) / 306001 < 14 then 10000 * (123 + k) / 306001 - 1
          else 10000 * (123 + k) / 306001 - 13,
        123 + k - 306001 * (10000 * (123 + k) / 306001) / 10000) := by
  obtain ⟨u, v, s, t, hy, hv0, hv1, hs0, hs1, ht0, ht1⟩ :
      ∃ u v s t : Int, y' = 400 * u + 100 * v + 4 * s + t ∧
        0 ≤ v ∧ v < 4 ∧ 0 ≤ s ∧ s < 25 ∧ 0 ≤ t ∧ t < 4 :=
    ⟨y' / 400, y' % 400 / 100, y' % 100 / 4, y' % 4, by omega, by omega, by omega, by omega,
      by omega, by omega, by omega⟩
  have hN : 365 * y' + y' / 4 - y' / 100 + y' / 400
      = 146097 * u + 36524 * v + 1461 * s + 365 * t := by omega
  have hZ2 : Z = 1721120 + 146097 * u + 36524 * v + 1461 * s + 365 * t + k := by omega
  have hk3 : k = 365 → t = 3 ∧ (s ≠ 24 ∨ v = 3) := by
    intro h
    have := hk2 h
    omega
  obtain ⟨-, hC, hBD⟩ := meeus_core Z _ _ _ _ _ u v s t k hv0 hv1 hs0 hs1 ht0 ht1 hk0 hk1 hk3 hZ2
    rfl rfl rfl rfl rfl
  unfold meeusDate
  dsimp only
  rw [hBD, hC]
  have hE1 : 4 ≤ 10000 * (123 + k) / 306001 := by omega
  have hE2 : 10000 * (123 + k) / 306001 ≤ 15 := by omega
  generalize 10000 * (123 + k) / 306001 = E at hE1 hE2 ⊢
  refine Prod.ext ?_ (Prod.ext ?_ ?_)
  · dsimp only
    split <;> split <;> split <;> omega
  · rfl
  · rfl

theorem daysInMonth_le (y m : Int) :
    daysInMonth y m ≤ 31 ∧ (m = 2 → daysInMonth y m ≤ 29) ∧
    (m = 4 ∨ m = 6 ∨ m = 9 ∨ m = 11 → daysInMonth y m ≤ 30) := by
  unfold daysInMonth
  refine ⟨?_, ?_, ?_⟩
  · split
    · split <;> omega
    · split <;> omega
  · intro h
    rw [if_pos h]
    split <;> omega
  · intro h
    rw [if_neg (by omega), if_pos h]

theorem daysInMonths_values (y : Int) :
    daysInMonths y 0 = 0 ∧ daysInMonths y 1 = 31 ∧
    daysInMonths y 2 = 59 + (if isLeapYear y then 1 else 0) ∧
    daysInMonths y 3 = 90 + (if isLeapYear y then 1 else 0) ∧
    daysInMonths y 4 = 120 + (if isLeapYear y then 1 else 0) ∧
    daysInMonths y 5 = 151 + (if isLeapYear y then 1 else 0) ∧
    daysInMonths y 6 = 181 + (if isLeapYear y then 1 else 0) ∧
    daysInMonths y 7 = 212 + (if isLeapYear y then 1 else 0) ∧
    daysInMonths y 8 = 243 + (if isLeapYear y then 1 else 0) ∧
    daysInMonths y 9 = 273 + (if isLeapYear y then 1 else 0) ∧
    daysInMonths y 10 = 304 + (if isLeapYear y then 1 else 0) ∧
    daysInMonths y 11 = 334 + (if isLeapYear y then 1 else 0) := by
  by_cases h : isLeapYear y <;> simp [daysInMonths, daysInMonth, h]

theorem julianDayNumber_janFeb (y m d : Int) (hm1 : 1 ≤ m) (hm2 : m ≤ 2) :
    julianDayNumber y m d
      = 1721120 + 365 * (y - 1) + (y - 1) / 4 - (y - 1) / 100 + (y - 1) / 400
        + (306 + 31 * (m - 1) + d - 1) := by
  obtain ⟨t0, t1, -⟩ := daysInMonths_values y
  unfold julianDayNumber
  interval_cases m
  · norm_num [t0]
    omega
  · norm_num [t1]
    omega

theorem daysBeforeYear_shift (y L : Int) (h1 : isLeapYear y → L = 1)
    (h0 : ¬ isLeapYear y → L = 0) :
    365 * (y - 1) + (y - 1) / 4 - (y - 1) / 100 + (y - 1) / 400 + L
      = 365 * y + y / 4 - y / 100 + y / 400 - 365 := by
  unfold isLeapYear at h1 h0
  omega

theorem julianDayNumber_offset (y d L T : Int)
    (hN : 365 * (y - 1) + (y - 1) / 4 - (y - 1) / 100 + (y - 1) / 400 + L
      = 365 * y + y / 4 - y / 100 + y / 400 - 365) :
    1721425 + 365 * (y - 1) + (y - 1) / 4 - (y - 1) / 100 + (y - 1) / 400 + (T + L) + d
      = 1721120 + 365 * y + y / 4 - y / 100 + y / 400 + (T - 59 + d - 1) := by
  linarith

theorem julianDayNumber_marDec (y m d : Int) (hm1 : 3 ≤ m) (hm2 : m ≤ 12) :
    julianDayNumber y m d
      = 1721120 + 365 * y + y / 4 - y / 100 + y / 400 + ((153 * (m - 3) + 2) / 5 + d - 1) := by
  obtain ⟨-, -, t2, t3, t4, t5, t6, t7, t8, t9, t10, t11⟩ := daysInMonths_values y
  have hN := daysBeforeYear_shift y (if isLeapYear y then 1 else 0) (fun h => if_pos h)
    (fun h => if_neg h)
  unfold julianDayNumber
  interval_cases m
  · rw [show ((3 : Int) - 1).toNat = 2 from rfl, t2]
    exact julianDayNumber_offset y d _ 59 hN
  · rw [show ((4 : Int) - 1).toNat = 3 from rfl, t3]
    exact julianDayNumber_offset y d _ 90 hN
  · rw [show ((5 : Int) - 1).toNat = 4 from rfl, t4]
    exact julianDayNumber_offset y d _ 120 hN
  · rw [show ((6 : Int) - 1).toNat = 5 from rfl, t5]
    exact julianDayNumber_offset y d _ 151 hN
  · rw [show ((7 : Int) - 1).toNat = 6 from rfl, t6]
    exact julianDayNumber_offset y d _ 181 hN
  · rw [show ((8 : Int) - 1).toNat = 7 from rfl, t7]
    exact julianDayNumber_offset y d _ 212 hN
  · rw [show ((9 : Int) - 1).toNat = 8 from rfl, t8]
    exact julianDayNumber_offset y d _ 243 hN
  · rw [show ((10 : Int) - 1).toNat = 9 from rfl, t9]
    exact julianDayNumber_offset y d _ 273 hN
  · rw [show ((11 : Int) - 1).toNat = 10 from rfl, t10]
    exact julianDayNumber_offset y d _ 304 hN
  · rw [show ((12 : Int) - 1).toNat = 11 from rfl, t11]
    exact julianDayNumber_offset y d _ 334 hN

theorem meeusE_janFeb (m d k : Int) (hm1 : 1 ≤ m) (hm2 : m ≤ 2) (hd1 : 1 ≤ d) (hd31 : d ≤ 31)
    (hd29 : m = 2 → d ≤ 29) (hk : k = 306 + 31 * (m - 1) + d - 1) :
    10000 * (123 + k) / 306001 = m + 13 ∧
    123 + k - 306001 * (m + 13) / 10000 = d := by
  interval_cases m <;> omega

theorem meeusE_marDec (m d k : Int) (hm1 : 3 ≤ m) (hm2 : m ≤ 12) (hd1 : 1 ≤ d) (hd31 : d ≤ 31)
    (hd30 : m = 4 ∨ m = 6 ∨ m = 9 ∨ m = 11 → d ≤ 30)
    (hk : k = (153 * (m - 3) + 2) / 5 + d - 1) :
    k ≤ 364 ∧ 10000 * (123 + k) / 306001 = m + 1 ∧
    123 + k - 306001 * (m + 1) / 10000 = d := by
  interval_cases m <;> omega

theorem meeusDate_julianDayNumber (y m d : Int) (hm1 : 1 ≤ m) (hm2 : m ≤ 12) (hd1 : 1 ≤ d)
    (hd2 : d ≤ daysInMonth y m) : meeusDate (julianDayNumber y m d) = (y, m, d) := by
  obtain ⟨hd31, hd29, hd30⟩ := daysInMonth_le y m
  have hd31' : d ≤ 31 := le_trans hd2 hd31
  have hd29' : m = 2 → d ≤ 29 := fun h => le_trans hd2 (hd29 h)
  have hd30' : m = 4 ∨ m = 6 ∨ m = 9 ∨ m = 11 → d ≤ 30 := fun h => le_trans hd2 (hd30 h)
  by_cases hm : m ≤ 2
  · -- January and February belong to the March-based year `y - 1`
    obtain ⟨hE, hday⟩ := meeusE_janFeb m d _ hm1 hm hd1 hd31' hd29' rfl
    have hleap : 306 + 31 * (m - 1) + d - 1 = 365 →
        (y - 1 + 1) % 4 = 0 ∧ ((y - 1 + 1) % 100 ≠ 0 ∨ (y - 1 + 1) % 400 = 0) := by
      intro hk
      have hm2' : m = 2 := by omega
      have hd : d = 29 := by omega
      subst hm2' hd
      have hl : isLeapYear y := by
        by_contra hl
        have : daysInMonth y 2 = 28 := by simp [daysInMonth, hl]
        omega
      unfold isLeapYear at hl
      omega
    rw [meeusDate_marchBased _ (y - 1) _ (by omega) (by omega) hleap
      (julianDayNumber_janFeb y m d hm1 hm), hE, hday]
    refine Prod.ext ?_ (Prod.ext ?_ rfl) <;> dsimp only
    · rw [if_neg (by omega)]; omega
    · rw [if_neg (by omega)]; omega
  · -- March to December: the March-based year is `y`
    obtain ⟨hk1, hE, hday⟩ := meeusE_marDec m d _ (by omega) hm2 hd1 hd31' hd30' rfl
    rw [meeusDate_marchBased _ y _ (by omega) (by omega) (by omega)
      (julianDayNumber_marDec y m d (by omega) hm2), hE, hday]
    refine Prod.ext ?_ (Prod.ext ?_ rfl) <;> dsimp only
    · rw [if_pos (by omega)]
    · rw [if_pos (by omega)]; omega

end Calendar

section ExactDecode

theorem truncToInt_div (a : Int) (b : Nat) (ha : 0 ≤ a) :
    truncToInt ((a : ℚ) / (b : ℚ)) = a / (b : Int) := by
  unfold truncToInt
  rw [if_pos (div_nonneg (by exact_mod_cast ha) (Nat.cast_nonneg b))]
  exact Rat.floor_intCast_div_natCast a b

theorem truncToInt_of_eq {x : ℚ} (a : Int) (b : Nat) (ha : 0 ≤ a)
    (hx : x = (a : ℚ) / (b : ℚ)) : truncToInt x = a / (b : Int) := by
  rw [hx]; exact truncToInt_div a b ha

theorem MJDToDateTime_exact (Z T : Int) (hZ : 2299161 ≤ Z) (hT0 : 0 ≤ T) (hT1 : T < 86400) :
    MJDToDateTime id (((Z - 2400001 : Int) : ℚ) + (T : ℚ) / 86400)
      = { year := (meeusDate Z).1, month := (meeusDate Z).2.1, day := (meeusDate Z).2.2,
          hour := T / 3600, min := T % 3600 / 60, sec := T % 60 } := by
  have hjd : ((Z - 2400001 : Int) : ℚ) + (T : ℚ) / 86400 + 2400000.5 + 0.5
      = (Z : ℚ) + (T : ℚ) / 86400 := by
    push_cast; ring
  have hZt : truncToInt ((Z : ℚ) + (T : ℚ) / 86400) = Z := by
    have := truncToInt_of_eq (x := (Z : ℚ) + (T : ℚ) / 86400) (86400 * Z + T) 86400 (by omega)
      (by push_cast; field_simp; ring)
    rw [this]; omega
  have hF : (Z : ℚ) + (T : ℚ) / 86400 - (Z : ℚ) = (T : ℚ) / 86400 := by ring
  have hα : truncToInt (((Z : ℚ) - 1867216.25) / 36524.25) = (4 * Z - 7468865) / 146097 :=
    truncToInt_of_eq (4 * Z - 7468865) 146097 (by omega) (by push_cast; norm_num; ring)
  have htdiv : Int.tdiv ((4 * Z - 7468865) / 146097) 4 = (4 * Z - 7468865) / 146097 / 4 :=
    Int.tdiv_eq_ediv (by omega) (by omega)
  have hC : ∀ B : Int, 123 ≤ B →
      truncToInt (((B : ℚ) - 122.1) / 365.25) = (20 * B - 2442) / 7305 := fun B hB =>
    truncToInt_of_eq (20 * B - 2442) 7305 (by omega) (by push_cast; norm_num; ring)
  have hD : ∀ C : Int, 0 ≤ C → truncToInt (365.25 * (C : ℚ)) = 1461 * C / 4 := fun C hC =>
    truncToInt_of_eq (1461 * C) 4 (by omega) (by push_cast; norm_num; ring)
  have hE : ∀ n : Int, 0 ≤ n → truncToInt ((n : ℚ) / 30.6001) = 10000 * n / 306001 := fun n hn =>
    truncToInt_of_eq (10000 * n) 306001 (by omega) (by push_cast; norm_num; ring)
  have hday : ∀ E : Int, 0 ≤ E → truncToInt (30.6001 * (E : ℚ)) = 306001 * E / 10000 :=
    fun E hE => truncToInt_of_eq (306001 * E) 10000 (by omega) (by push_cast; norm_num; ring)
  have hhour : truncToInt ((T : ℚ) / 86400 * 24) = T / 3600 :=
    truncToInt_of_eq T 3600 hT0 (by push_cast; ring)
  have hmin : truncToInt (((T : ℚ) / 86400 * 24 - ((T / 3600 : Int) : ℚ)) * 60)
      = T % 3600 / 60 := by
    have := truncToInt_of_eq (x := ((T : ℚ) / 86400 * 24 - ((T / 3600 : Int) : ℚ)) * 60)
      (T - 3600 * (T / 3600)) 60 (by omega) (by push_cast; ring)
    rw [this]; omega
  have hsec : truncToInt
      ((((T : ℚ) / 86400 * 24 - ((T / 3600 : Int) : ℚ)) * 60 - ((T % 3600 / 60 : Int) : ℚ)) * 60)
      = T % 60 := by
    have := truncToInt_of_eq
      (x := (((T : ℚ) / 86400 * 24 - ((T / 3600 : Int) : ℚ)) * 60
        - ((T % 3600 / 60 : Int) : ℚ)) * 60)
      (T - 3600 * (T / 3600) - 60 * (T % 3600 / 60)) 1 (by omega) (by push_cast; ring)
    rw [this]; omega
  unfold MJDToDateTime meeusDate
  simp only [id]
  rw [hjd, hZt, hF, if_neg (show ¬ Z < 2299161 by omega), hα, htdiv]
  rw [hC]
  swap
  · omega
  rw [hD]
  swap
  · omega
  rw [hE]
  swap
  · omega
  rw [hday]
  swap
  · omega
  rw [hhour, hmin, hsec]

end ExactDecode

section Formatting

theorem toDigitsCore_step (fuel n : Nat) (ds : List Char) (h : n < fuel) :
    Nat.toDigitsCore 10 fuel n ds =
      if n / 10 = 0 then Nat.digitChar (n % 10) :: ds
      else Nat.toDigitsCore 10 (fuel - 1) (n / 10) (Nat.digitChar (n % 10) :: ds) := by
  cases fuel with
  | zero => omega
  | succ f => simp [Nat.toDigitsCore]

theorem digitChar_eq : ∀ d : Nat, d < 10 → Nat.digitChar d = decimalDigit (d : Int) := by
  decide

theorem toDigits_lt_10000 (k : Nat) (hk : k < 10000) :
    Nat.toDigits 10 k =
      if k < 10 then [Nat.digitChar (k % 10)]
      else if k < 100 then [Nat.digitChar (k / 10 % 10), Nat.digitChar (k % 10)]
      else if k < 1000 then
        [Nat.digitChar (k / 100 % 10), Nat.digitChar (k / 10 % 10), Nat.digitChar (k % 10)]
      else [Nat.digitChar (k / 1000 % 10), Nat.digitChar (k / 100 % 10),
            Nat.digitChar (k / 10 % 10), Nat.digitChar (k % 10)] := by
  unfold Nat.toDigits
  rw [toDigitsCore_step _ _ _ (by omega)]
  split
  · rw [if_pos (by omega)]
  rw [if_neg (by omega)]
  rw [toDigitsCore_step _ _ _ (by omega)]
  split
  · rw [if_pos (by omega)]
  rw [if_neg (by omega)]
  rw [toDigitsCore_step _ _ _ (by omega)]
  split
  · rw [if_pos (by omega)]
    simp [Nat.div_div_eq_div_mul]
  rw [if_neg (by omega)]
  rw [toDigitsCore_step _ _ _ (by omega)]
  rw [if_pos (by omega)]
  simp [Nat.div_div_eq_div_mul]

theorem fmtD0_four (y : Int) (h0 : 0 ≤ y) (h1 : y ≤ 9999) : fmtD0 4 y = fourDigits y := by
  obtain ⟨k, rfl⟩ := Int.eq_ofNat_of_zero_le h0
  have hk : k < 10000 := by omega
  unfold fmtD0 fourDigits zeroPad
  rw [if_pos h0, Int.toNat_ofNat, toDigits_lt_10000 k hk]
  have e1 := digitChar_eq (k % 10) (by omega)
  have e2 := digitChar_eq (k / 10 % 10) (by omega)
  have e3 := digitChar_eq (k / 100 % 10) (by omega)
  have e4 := digitChar_eq (k / 1000 % 10) (by omega)
  have z : ('0' : Char) = decimalDigit 0 := by decide
  push_cast at e1 e2 e3 e4
  rw [e1, e2, e3, e4, z]
  split
  · have a1 : (k : Int) / 1000 = 0 := by omega
    have a2 : (k : Int) / 100 % 10 = 0 := by omega
    have a3 : (k : Int) / 10 % 10 = 0 := by omega
    rw [a1, a2, a3]; rfl
  split
  · have a1 : (k : Int) / 1000 = 0 := by omega
    have a2 : (k : Int) / 100 % 10 = 0 := by omega
    rw [a1, a2]; rfl
  split
  · have a1 : (k : Int) / 1000 = 0 := by omega
    rw [a1]; rfl
  · have a1 : (k : Int) / 1000 % 10 = (k : Int) / 1000 := by omega
    rw [a1]; rfl

theorem fmtD0_two_nat : ∀ k : Nat, k < 100 → fmtD0 2 (k : Int) = twoDigits (k : Int) := by
  decide

theorem fmtD0_two (n : Int) (h0 : 0 ≤ n) (h1 : n ≤ 99) : fmtD0 2 n = twoDigits n := by
  obtain ⟨k, rfl⟩ := Int.eq_ofNat_of_zero_le h0
  exact fmtD0_two_nat k (by omega)

end Formatting

section Rounding2

theorem two_zpow_pos (e : Int) : (0 : ℚ) < (2 : ℚ) ^ e := zpow_pos (by norm_num) e

theorem ilog2_lt {x : ℚ} (hx : x ≠ 0) : |x| < (2 : ℚ) ^ (ilog2 x + 1) := by
  unfold ilog2
  dsimp only
  have hn : x.num.natAbs ≠ 0 := by simpa using hx
  have hd : x.den ≠ 0 := x.den_nz
  have hden : (0 : ℚ) < x.den := by exact_mod_cast Nat.pos_of_ne_zero hd
  have habs : |x| = (x.num.natAbs : ℚ) / (x.den : ℚ) := by
    conv_lhs => rw [← Rat.num_div_den x]
    rw [abs_div, Nat.abs_cast, Nat.cast_natAbs, Int.cast_abs]
  split
  · have h1 : (x.num.natAbs : ℚ) < (2 : ℚ) ^ (floorLog2 x.num.natAbs + 1) := by
      exact_mod_cast (floorLog2_spec hn).2
    have h2 : ((2 : ℚ) ^ (floorLog2 x.den)) ≤ (x.den : ℚ) := by
      exact_mod_cast (floorLog2_spec hd).1
    have hpow : (2 : ℚ) ^ ((floorLog2 x.num.natAbs : Int) - (floorLog2 x.den : Int) + 1)
        = (2 : ℚ) ^ (floorLog2 x.num.natAbs + 1) / (2 : ℚ) ^ (floorLog2 x.den) := by
      rw [show ((floorLog2 x.num.natAbs : Int) - (floorLog2 x.den : Int) + 1)
        = ((floorLog2 x.num.natAbs + 1 : Nat) : Int) - ((floorLog2 x.den : Nat) : Int) by
          push_cast; ring]
      rw [zpow_sub₀ (by norm_num), zpow_natCast, zpow_natCast]
    rw [hpow, habs]
    exact div_lt_div₀ (by exact_mod_cast h1) h2 (by positivity) (by positivity)
  · rename_i h
    rw [sub_add_cancel]
    exact not_le.1 h

theorem roundHalfEven_sub_le (q : ℚ) : |(roundHalfEven q : ℚ) - q| ≤ 1 / 2 := by
  have h1 := Int.floor_le q
  have h2 := Int.lt_floor_add_one q
  unfold roundHalfEven
  dsimp only
  rw [abs_le]
  split
  · constructor <;> linarith
  · split
    · push_cast; constructor <;> linarith
    · split
      · constructor <;> linarith
      · push_cast; constructor <;> linarith

theorem roundHalfEven_intCast (n : Int) : roundHalfEven (n : ℚ) = n := by
  unfold roundHalfEven
  dsimp only
  rw [Int.floor_intCast, sub_self, if_pos (by norm_num)]

theorem roundHalfEven_nonneg {q : ℚ} (hq : 0 ≤ q) : 0 ≤ roundHalfEven q :=
  le_trans (Int.floor_nonneg.2 hq) (floor_le_roundHalfEven q)

theorem binary64_zero : binary64 0 = 0 := by
  unfold binary64
  rw [if_pos rfl]

theorem binary64_nonneg {x : ℚ} (hx : 0 ≤ x) : 0 ≤ binary64 x := by
  unfold binary64
  split
  · exact le_refl _
  · dsimp only
    refine mul_nonneg ?_ (two_zpow_pos _).le
    exact_mod_cast roundHalfEven_nonneg (div_nonneg hx (two_zpow_pos _).le)

/-- The rounding error is at most half a unit in the last place. -/
theorem binary64_error (x : ℚ) :
    |binary64 x - x| ≤ |x| / 2 ^ 53 + 1 / 2 ^ 1075 := by
  by_cases hx : x = 0
  · subst hx
    rw [binary64_zero]
    norm_num
  unfold binary64
  rw [if_neg hx]
  dsimp only
  generalize he : max (ilog2 x - 52) (-1074) = e
  have hp := two_zpow_pos e
  have hr := roundHalfEven_sub_le (x / (2 : ℚ) ^ e)
  have h1 : (roundHalfEven (x / (2 : ℚ) ^ e) : ℚ) * (2 : ℚ) ^ e - x
      = ((roundHalfEven (x / (2 : ℚ) ^ e) : ℚ) - x / (2 : ℚ) ^ e) * (2 : ℚ) ^ e := by
    field_simp
  rw [h1, abs_mul, abs_of_pos hp]
  have h2 : |(roundHalfEven (x / (2 : ℚ) ^ e) : ℚ) - x / (2 : ℚ) ^ e| * (2 : ℚ) ^ e
      ≤ (2 : ℚ) ^ e / 2 := by
    calc _ ≤ 1 / 2 * (2 : ℚ) ^ e := mul_le_mul_of_nonneg_right hr hp.le
      _ = (2 : ℚ) ^ e / 2 := by ring
  refine le_trans h2 ?_
  rcases max_cases (ilog2 x - 52) (-1074) with ⟨h, _⟩ | ⟨h, _⟩
  · rw [← he, h]
    have h3 : (2 : ℚ) ^ (ilog2 x - 52) = (2 : ℚ) ^ ilog2 x / 2 ^ 52 := by
      rw [zpow_sub₀ (by norm_num)]
      norm_num
    rw [h3]
    have h4 := ilog2_le hx
    have h5 : (2 : ℚ) ^ ilog2 x / 2 ^ 52 / 2 ≤ |x| / 2 ^ 53 := by
      rw [div_div, show (2 : ℚ) ^ 52 * 2 = 2 ^ 53 by norm_num]
      exact div_le_div_of_nonneg_right h4 (by positivity)
    have h6 : (0 : ℚ) ≤ 1 / 2 ^ 1075 := by positivity
    linarith
  · rw [← he, h]
    have h3 : (2 : ℚ) ^ (-1074 : Int) / 2 = 1 / 2 ^ 1075 := by
      rw [zpow_neg, show ((1074 : Int)) = ((1074 : Nat) : Int) by norm_num, zpow_natCast]
      rw [show (2 : ℚ) ^ 1075 = 2 ^ 1074 * 2 by rw [pow_succ]]
      field_simp
    rw [h3]
    have h6 : (0 : ℚ) ≤ |x| / 2 ^ 53 := by positivity
    linarith

end Rounding2

section Rounding3

/-- Numbers `m * 2 ^ k` with `|m| < 2 ^ 53` and `k ≥ -1074` are binary64 values. -/
theorem binary64_exact_lt (m k : Int) (hm : |m| < 2 ^ 53) (hk : -1074 ≤ k) :
    binary64 ((m : ℚ) * (2 : ℚ) ^ k) = (m : ℚ) * (2 : ℚ) ^ k := by
  by_cases hm0 : m = 0
  · subst hm0
    simp [binary64_zero]
  have hx : (m : ℚ) * (2 : ℚ) ^ k ≠ 0 :=
    mul_ne_zero (by exact_mod_cast hm0) (two_zpow_pos k).ne'
  have hlog : ilog2 ((m : ℚ) * (2 : ℚ) ^ k) - 52 ≤ k := by
    have h1 := ilog2_le hx
    have h2 : |(m : ℚ) * (2 : ℚ) ^ k| < (2 : ℚ) ^ (53 + k) := by
      rw [abs_mul, abs_of_pos (two_zpow_pos k), zpow_add₀ (by norm_num)]
      refine mul_lt_mul_of_pos_right ?_ (two_zpow_pos k)
      have : |(m : ℚ)| < 2 ^ 53 := by exact_mod_cast hm
      have h53 : (2 : ℚ) ^ (53 : Int) = 2 ^ 53 := by norm_num
      rw [h53]
      exact this
    have h3 : (2 : ℚ) ^ ilog2 ((m : ℚ) * (2 : ℚ) ^ k) < (2 : ℚ) ^ (53 + k) :=
      lt_of_le_of_lt h1 h2
    have h4 := (zpow_lt_zpow_iff_right₀ (by norm_num : (1 : ℚ) < 2)).1 h3
    omega
  unfold binary64
  rw [if_neg hx]
  dsimp only
  generalize he : max (ilog2 ((m : ℚ) * (2 : ℚ) ^ k) - 52) (-1074) = e
  have hek : e ≤ k := by
    rw [← he]
    exact max_le hlog hk
  obtain ⟨n, hn⟩ := Int.eq_ofNat_of_zero_le (by omega : 0 ≤ k - e)
  have hdiv : (m : ℚ) * (2 : ℚ) ^ k / (2 : ℚ) ^ e = ((m * 2 ^ n : Int) : ℚ) := by
    rw [mul_div_assoc, ← zpow_sub₀ (by norm_num), hn]
    push_cast
    rw [zpow_natCast]
  rw [hdiv, roundHalfEven_intCast]
  have hk2 : k = n + e := by omega
  rw [hk2, zpow_add₀ (by norm_num), zpow_natCast]
  push_cast
  ring

theorem binary64_exact (m k : Int) (hm : |m| ≤ 2 ^ 53) (hk : -1074 ≤ k) :
    binary64 ((m : ℚ) * (2 : ℚ) ^ k) = (m : ℚ) * (2 : ℚ) ^ k := by
  rcases lt_or_eq_of_le hm with h | h
  · exact binary64_exact_lt m k h hk
  · -- `m = ± 2 ^ 53 = (± 2 ^ 52) * 2`
    have h2 : (m : ℚ) * (2 : ℚ) ^ k = ((m / 2 : Int) : ℚ) * (2 : ℚ) ^ (k + 1) := by
      have hm2 : m = m / 2 * 2 := by
        rcases abs_cases m with ⟨h1, _⟩ | ⟨h1, _⟩ <;> omega
      rw [zpow_add₀ (by norm_num), zpow_one]
      conv_lhs => rw [hm2]
      push_cast
      ring
    rw [h2]
    refine binary64_exact_lt (m / 2) (k + 1) ?_ (by omega)
    rcases abs_cases m with ⟨h1, _⟩ | ⟨h1, _⟩ <;>
      rcases abs_cases (m / 2) with ⟨h3, _⟩ | ⟨h3, _⟩ <;> omega

end Rounding3

section Rounding4

/-- Every binary64 value is `M * 2 ^ e` with `|M| ≤ 2 ^ 53` and `e ≥ -1074`. -/
theorem binary64_grid {w : ℚ} (hw : 0 ≤ w) :
    ∃ (M e : Int), binary64 w = (M : ℚ) * (2 : ℚ) ^ e ∧ 0 ≤ M ∧ M ≤ 2 ^ 53 ∧ -1074 ≤ e := by
  by_cases hw0 : w = 0
  · exact ⟨0, 0, by simp [hw0, binary64_zero], le_refl _, by norm_num, by norm_num⟩
  refine ⟨roundHalfEven (w / (2 : ℚ) ^ (max (ilog2 w - 52) (-1074))),
    max (ilog2 w - 52) (-1074), ?_, ?_, ?_, le_max_right _ _⟩
  · unfold binary64
    rw [if_neg hw0]
  · exact roundHalfEven_nonneg (div_nonneg hw (two_zpow_pos _).le)
  · generalize he : max (ilog2 w - 52) (-1074) = e
    have hle : ilog2 w + 1 ≤ e + 53 := by
      have := le_max_left (ilog2 w - 52) (-1074)
      omega
    have h1 : w < (2 : ℚ) ^ (e + 53) := by
      have := ilog2_lt hw0
      rw [abs_of_nonneg hw] at this
      exact lt_of_lt_of_le this (zpow_le_zpow_right₀ (by norm_num) hle)
    have h2 : w / (2 : ℚ) ^ e < 2 ^ 53 := by
      rw [div_lt_iff₀ (two_zpow_pos e)]
      have : (2 : ℚ) ^ (e + 53) = 2 ^ 53 * (2 : ℚ) ^ e := by
        rw [zpow_add₀ (by norm_num)]
        norm_num
        ring
      rwa [this] at h1
    have h3 := (abs_le.1 (roundHalfEven_sub_le (w / (2 : ℚ) ^ e))).2
    have h4 : (roundHalfEven (w / (2 : ℚ) ^ e) : ℚ) < 2 ^ 53 + 1 := by linarith
    have h5 : roundHalfEven (w / (2 : ℚ) ^ e) < 2 ^ 53 + 1 := by exact_mod_cast h4
    omega

/-- Subtracting its integer part from a non-negative binary64 value is exact, and the
fractional part is at most `1 - 2 ^ (-53)`. -/
theorem binary64_sub_floor {w : ℚ} (hw : 0 ≤ w) (j : Int) (hj0 : 0 ≤ j)
    (hj : (j : ℚ) ≤ binary64 w) (hj1 : binary64 w < j + 1) :
    binary64 (binary64 w - j) = binary64 w - j ∧ binary64 w - j ≤ 1 - 1 / 2 ^ 53 := by
  obtain ⟨M, e, hv, hM0, hM1, he⟩ := binary64_grid hw
  rw [hv] at hj hj1 ⊢
  rcases le_or_lt 0 e with he0 | he0
  · -- an integer
    obtain ⟨n, rfl⟩ := Int.eq_ofNat_of_zero_le he0
    have hint : (M : ℚ) * (2 : ℚ) ^ (n : Int) = ((M * 2 ^ n : Int) : ℚ) := by
      rw [zpow_natCast]; push_cast; ring
    rw [hint] at hj hj1 ⊢
    have h1 : j ≤ M * 2 ^ n := by exact_mod_cast hj
    have h2 : M * 2 ^ n < j + 1 := by exact_mod_cast hj1
    have h3 : M * 2 ^ n = j := by omega
    rw [h3, sub_self, binary64_zero]
    exact ⟨rfl, by norm_num⟩
  rcases le_or_lt (-53) e with he1 | he1
  · -- grid spacing `2 ^ e` with `-53 ≤ e < 0`
    obtain ⟨n, hn⟩ := Int.eq_ofNat_of_zero_le (by omega : 0 ≤ -e)
    have hn53 : n ≤ 53 := by omega
    have hpow : (2 : ℚ) ^ e = 1 / 2 ^ n := by
      rw [show e = -(n : Int) by omega, zpow_neg, zpow_natCast, one_div]
    have hp : (0 : ℚ) < 2 ^ n := by positivity
    have hsub : (M : ℚ) * (2 : ℚ) ^ e - j = ((M - j * 2 ^ n : Int) : ℚ) * (2 : ℚ) ^ e := by
      rw [hpow]; push_cast; field_simp; ring
    have h1 : 0 ≤ M - j * 2 ^ n := by
      have : (j : ℚ) * 2 ^ n ≤ M := by
        rw [hpow] at hj
        have := mul_le_mul_of_nonneg_right hj hp.le
        rwa [mul_one_div, div_mul_cancel₀ _ hp.ne'] at this
      have : j * 2 ^ n ≤ M := by exact_mod_cast this
      omega
    have h2 : M - j * 2 ^ n < 2 ^ n := by
      have : (M : ℚ) < (j + 1) * 2 ^ n := by
        rw [hpow] at hj1
        have := mul_lt_mul_of_pos_right hj1 hp
        rwa [mul_one_div, div_mul_cancel₀ _ hp.ne'] at this
      have : M < (j + 1) * 2 ^ n := by exact_mod_cast this
      linarith
    have h3 : (2 : Int) ^ n ≤ 2 ^ 53 := pow_le_pow_right₀ (by norm_num) hn53
    rw [hsub]
    refine ⟨binary64_exact_lt _ e (by rw [abs_of_nonneg h1]; omega) he, ?_⟩
    rw [hpow]
    have h4 : ((M - j * 2 ^ n : Int) : ℚ) ≤ 2 ^ n - 1 := by
      have : M - j * 2 ^ n ≤ 2 ^ n - 1 := by omega
      exact_mod_cast this
    have h5 : (2 : ℚ) ^ n ≤ 2 ^ 53 := pow_le_pow_right₀ (by norm_num) hn53
    rw [mul_one_div, div_le_iff₀ hp]
    have h6 : (1 - 1 / 2 ^ 53 : ℚ) * 2 ^ n = 2 ^ n - 2 ^ n / 2 ^ 53 := by ring
    have h7 : (2 : ℚ) ^ n / 2 ^ 53 ≤ 1 := by
      rw [div_le_one (by positivity)]; exact h5
    linarith
  · -- below one half
    have hsmall : (M : ℚ) * (2 : ℚ) ^ e ≤ 1 / 2 := by
      have h1 : (2 : ℚ) ^ e ≤ (2 : ℚ) ^ (-54 : Int) :=
        zpow_le_zpow_right₀ (by norm_num) (by omega)
      have h2 : (M : ℚ) ≤ 2 ^ 53 := by exact_mod_cast hM1
      have h3 : (0 : ℚ) ≤ M := by exact_mod_cast hM0
      calc (M : ℚ) * (2 : ℚ) ^ e ≤ 2 ^ 53 * (2 : ℚ) ^ (-54 : Int) :=
            mul_le_mul h2 h1 (two_zpow_pos e).le (by positivity)
        _ = 1 / 2 := by norm_num
    have hj2 : j = 0 := by
      have : (j : ℚ) < 1 := by linarith
      have : j < 1 := by exact_mod_cast this
      omega
    subst hj2
    simp only [Int.cast_zero, sub_zero]
    refine ⟨binary64_exact M e (by rw [abs_of_nonneg hM0]; exact hM1) he, ?_⟩
    have : (1 : ℚ) / 2 ≤ 1 - 1 / 2 ^ 53 := by norm_num
    linarith

end Rounding4

section TimeOfDay

theorem truncToInt_of_nonneg {x : ℚ} (hx : 0 ≤ x) : truncToInt x = ⌊x⌋ := by
  unfold truncToInt
  rw [if_pos hx]

theorem binary64_near (x B : ℚ) (hB : |x| ≤ B) :
    |binary64 x - x| ≤ B / 2 ^ 53 + 1 / 2 ^ 1075 := by
  have h := binary64_error x
  have h2 : |x| / 2 ^ 53 ≤ B / 2 ^ 53 := div_le_div_of_nonneg_right hB (by positivity)
  linarith

/-- One step of the time-of-day chain: scale the fraction `d` by `k`, split off the integer
part. -/
theorem binary64_stage (d : ℚ) (k : Int) (hd0 : 0 ≤ d) (hd1 : d ≤ 1 - 1 / 2 ^ 53)
    (hk0 : 1 ≤ k) (hk1 : k ≤ 60) :
    0 ≤ truncToInt (binary64 (d * k)) ∧ truncToInt (binary64 (d * k)) ≤ k - 1 ∧
    binary64 (binary64 (d * k) - (truncToInt (binary64 (d * k)) : ℚ))
      = binary64 (d * k) - (truncToInt (binary64 (d * k)) : ℚ) ∧
    0 ≤ binary64 (d * k) - (truncToInt (binary64 (d * k)) : ℚ) ∧
    binary64 (d * k) - (truncToInt (binary64 (d * k)) : ℚ) ≤ 1 - 1 / 2 ^ 53 ∧
    |binary64 (d * k) - d * k| ≤ 60 / 2 ^ 53 + 1 / 2 ^ 1075 ∧
    (truncToInt (binary64 (d * k)) : ℚ) ≤ binary64 (d * k) ∧
    binary64 (d * k) < (truncToInt (binary64 (d * k)) : ℚ) + 1 := by
  have hk0' : (1 : ℚ) ≤ k := by exact_mod_cast hk0
  have hk1' : (k : ℚ) ≤ 60 := by exact_mod_cast hk1
  have hw : 0 ≤ d * k := mul_nonneg hd0 (by linarith)
  have hv0 := binary64_nonneg hw
  have hdk : d * k ≤ 60 := by nlinarith
  have herr := binary64_near (d * k) 60 (by rw [abs_of_nonneg hw]; exact hdk)
  have herr2 := binary64_near (d * k) (d * k) (by rw [abs_of_nonneg hw])
  have hvlt : binary64 (d * k) < k := by
    have h1 := (abs_le.1 herr2).2
    have h2 : d * k ≤ (1 - 1 / 2 ^ 53) * k := mul_le_mul_of_nonneg_right hd1 (by linarith)
    have h3 : d * k / 2 ^ 53 ≤ (1 - 1 / 2 ^ 53) * k / 2 ^ 53 :=
      div_le_div_of_nonneg_right h2 (by positivity)
    have h4 : (1 - 1 / 2 ^ 53 : ℚ) * k + (1 - 1 / 2 ^ 53) * k / 2 ^ 53 + 1 / 2 ^ 1075 < k := by
      have h5 : (1 - 1 / 2 ^ 53 : ℚ) * k + (1 - 1 / 2 ^ 53) * k / 2 ^ 53
          = k - k / 2 ^ 106 := by ring
      rw [h5]
      have h6 : (1 : ℚ) / 2 ^ 106 ≤ k / 2 ^ 106 := div_le_div_of_nonneg_right hk0' (by positivity)
      have h7 : (1 : ℚ) / 2 ^ 1075 < 1 / 2 ^ 106 := by
        apply one_div_lt_one_div_of_lt (by positivity)
        exact pow_lt_pow_right₀ (by norm_num) (by norm_num)
      linarith
    linarith
  rw [truncToInt_of_nonneg hv0]
  have hf1 := Int.floor_le (binary64 (d * k))
  have hf2 := Int.lt_floor_add_one (binary64 (d * k))
  have hn0 : 0 ≤ ⌊binary64 (d * k)⌋ := Int.floor_nonneg.2 hv0
  have hn1 : ⌊binary64 (d * k)⌋ ≤ k - 1 := by
    have : (⌊binary64 (d * k)⌋ : ℚ) < k := lt_of_le_of_lt hf1 hvlt
    have : ⌊binary64 (d * k)⌋ < k := by exact_mod_cast this
    omega
  obtain ⟨hs1, hs2⟩ := binary64_sub_floor hw ⌊binary64 (d * k)⌋ hn0 hf1 hf2
  exact ⟨hn0, hn1, hs1, by linarith, hs2, herr, hf1, hf2⟩

/-- The time-of-day chain in binary64: for a day fraction `F` within `2 ^ (-28)` of `T / 86400`
the decoded time is `T` seconds or `T - 1` seconds after midnight, with all fields in range. -/
theorem timeOfDayFraction_binary64 (F : ℚ) (T : Int) (hF0 : 0 ≤ F) (hF1 : F ≤ 1 - 1 / 2 ^ 53)
    (hFT : |F - (T : ℚ) / 86400| ≤ 1 / 2 ^ 28) :
    ∃ Tc : Int, (Tc = T ∨ Tc = T - 1) ∧ 0 ≤ Tc ∧ Tc < 86400 ∧
      timeOfDayFraction binary64 F = (Tc / 3600, Tc % 3600 / 60, Tc % 60) := by
  unfold timeOfDayFraction
  dsimp only
  have c24 : ((24 : Int) : ℚ) = 24 := by norm_num
  have c60 : ((60 : Int) : ℚ) = 60 := by norm_num
  obtain ⟨ha0, ha1, hae, had0, had1, haerr, hafl, hafu⟩ :=
    binary64_stage F 24 hF0 hF1 (by norm_num) (by norm_num)
  rw [c24] at ha0 ha1 hae had0 had1 haerr hafl hafu
  rw [hae]
  generalize hv1 : binary64 (F * 24) = v1 at *
  generalize hh : truncToInt v1 = hour at *
  obtain ⟨hb0, hb1, hbe, hbd0, hbd1, hberr, hbfl, hbfu⟩ :=
    binary64_stage (v1 - hour) 60 had0 had1 (by norm_num) (by norm_num)
  rw [c60] at hb0 hb1 hbe hbd0 hbd1 hberr hbfl hbfu
  rw [hbe]
  generalize hv2 : binary64 ((v1 - hour) * 60) = v2 at *
  generalize hm : truncToInt v2 = mi at *
  obtain ⟨hc0, hc1, -, -, -, hcerr, hcfl, hcfu⟩ :=
    binary64_stage (v2 - mi) 60 hbd0 hbd1 (by norm_num) (by norm_num)
  rw [c60] at hc0 hc1 hcerr hcfl hcfu
  generalize hv3 : binary64 ((v2 - mi) * 60) = v3 at *
  generalize hs : truncToInt v3 = sec at *
  -- the value `3600 * hour + 60 * mi + v3` is within half a second of `T`
  obtain ⟨e1l, e1u⟩ := abs_le.1 haerr
  obtain ⟨e2l, e2u⟩ := abs_le.1 hberr
  obtain ⟨e3l, e3u⟩ := abs_le.1 hcerr
  obtain ⟨e0l, e0u⟩ := abs_le.1 hFT
  have htiny : (1 : ℚ) / 2 ^ 1075 ≤ 1 / 2 ^ 53 := by
    apply one_div_le_one_div_of_le (by positivity)
    exact pow_le_pow_right₀ (by norm_num) (by norm_num)
  have hu : (1 : ℚ) / 2 ^ 53 ≤ 1 / 1000000000000000 := by norm_num
  have h28 : (1 : ℚ) / 2 ^ 28 ≤ 1 / 200000000 := by norm_num
  have hlo : (T : ℚ) - 2 < 3600 * hour + 60 * mi + sec := by linarith
  have hhi : (3600 * hour + 60 * mi + sec : ℚ) < T + 1 := by linarith
  have hlo' : T - 2 < 3600 * hour + 60 * mi + sec := by exact_mod_cast hlo
  have hhi' : 3600 * hour + 60 * mi + sec < T + 1 := by exact_mod_cast hhi
  refine ⟨3600 * hour + 60 * mi + sec, by omega, by omega, by omega, ?_⟩
  refine Prod.ext ?_ (Prod.ext ?_ ?_) <;> dsimp only <;> omega

end TimeOfDay

section DateChain

theorem tiny_le : (1 : ℚ) / 2 ^ 1075 ≤ 1 / 2 ^ 53 := by
  apply one_div_le_one_div_of_le (by positivity)
  exact pow_le_pow_right₀ (by norm_num) (by norm_num)

theorem binary64_close (x B : ℚ) (hB : |x| ≤ B) :
    binary64 x - x ≤ (B + 1) / 9007199254740992 ∧
    -((B + 1) / 9007199254740992) ≤ binary64 x - x := by
  obtain ⟨h1, h2⟩ := abs_le.1 (binary64_near x B hB)
  have ht := tiny_le
  have e : (B + 1) / 9007199254740992 = B / 2 ^ 53 + 1 / 2 ^ 53 := by norm_num; ring
  rw [e]
  constructor <;> linarith

theorem binary64_close_of_bounds (x B : ℚ) (h1 : -B ≤ x) (h2 : x ≤ B) :
    binary64 x - x ≤ (B + 1) / 9007199254740992 ∧
    -((B + 1) / 9007199254740992) ≤ binary64 x - x :=
  binary64_close x B (abs_le.2 ⟨h1, h2⟩)

theorem abs_le_two_pow_53 {m : Int} (h1 : -9007199254740992 ≤ m) (h2 : m ≤ 9007199254740992) :
    |m| ≤ 2 ^ 53 := by
  rw [abs_le]
  norm_num
  exact ⟨h1, h2⟩

theorem binary64_intCast (m : Int) (h1 : -9007199254740992 ≤ m) (h2 : m ≤ 9007199254740992) :
    binary64 (m : ℚ) = m := by
  have := binary64_exact m 0 (abs_le_two_pow_53 h1 h2) (by norm_num)
  simpa using this

theorem binary64_quarters (m : Int) (h1 : -9007199254740992 ≤ m) (h2 : m ≤ 9007199254740992) :
    binary64 ((m : ℚ) / 4) = (m : ℚ) / 4 := by
  have := binary64_exact m (-2) (abs_le_two_pow_53 h1 h2) (by norm_num)
  have e : (m : ℚ) * (2 : ℚ) ^ (-2 : Int) = (m : ℚ) / 4 := by
    norm_num
    ring
  rwa [e] at this

theorem binary64_halves (m : Int) (h1 : -9007199254740992 ≤ m) (h2 : m ≤ 9007199254740992) :
    binary64 ((m : ℚ) / 2) = (m : ℚ) / 2 := by
  have := binary64_exact m (-1) (abs_le_two_pow_53 h1 h2) (by norm_num)
  have e : (m : ℚ) * (2 : ℚ) ^ (-1 : Int) = (m : ℚ) / 2 := by
    norm_num
    ring
  rwa [e] at this

theorem truncToInt_eq_of_between {x : ℚ} {n : Int} (hn : 0 ≤ n) (h1 : (n : ℚ) ≤ x)
    (h2 : x < (n : ℚ) + 1) : truncToInt x = n := by
  have hx : 0 ≤ x := le_trans (by exact_mod_cast hn) h1
  rw [truncToInt_of_nonneg hx, Int.floor_eq_iff]
  exact ⟨h1, h2⟩

theorem lit_1867216 : (1867216.25 : ℚ) = 7468865 / 4 := by norm_num

theorem lit_36524 : (36524.25 : ℚ) = 146097 / 4 := by norm_num

theorem lit_122 : (122.1 : ℚ) = 1221 / 10 := by norm_num

theorem lit_365 : (365.25 : ℚ) = 1461 / 4 := by norm_num

theorem lit_30 : (30.6001 : ℚ) = 306001 / 10000 := by norm_num

/-- A rounded quotient `(146097 n + r) / 146097`-style value keeps its integer part. -/
theorem floor_binary64_of_remainder (n r d : Int) (hd : 1 ≤ d) (hd1 : d ≤ 1000000)
    (hn0 : 0 ≤ n) (hn1 : n ≤ 100000) (hr0 : 1 ≤ r) (hr1 : r ≤ d - 1) (x : ℚ)
    (hx1 : (n : ℚ) + ((r : ℚ) - 1 / 2) / d ≤ x) (hx2 : x ≤ (n : ℚ) + ((r : ℚ) + 1 / 2) / d) :
    truncToInt (binary64 x) = n := by
  have hdq : (1 : ℚ) ≤ d := by exact_mod_cast hd
  have hdq1 : (d : ℚ) ≤ 1000000 := by exact_mod_cast hd1
  have hnq0 : (0 : ℚ) ≤ n := by exact_mod_cast hn0
  have hnq1 : (n : ℚ) ≤ 100000 := by exact_mod_cast hn1
  have hrq0 : (1 : ℚ) ≤ r := by exact_mod_cast hr0
  have hrq1 : (r : ℚ) ≤ d - 1 := by exact_mod_cast hr1
  have hdpos : (0 : ℚ) < d := by linarith
  have h1 : (1 : ℚ) / 2 / d ≤ ((r : ℚ) - 1 / 2) / d :=
    div_le_div_of_nonneg_right (by linarith) hdpos.le
  have h2 : ((r : ℚ) + 1 / 2) / d ≤ 1 - 1 / 2 / d := by
    rw [div_le_iff₀ hdpos]
    have : (1 - 1 / 2 / (d : ℚ)) * d = d - 1 / 2 := by field_simp; ring
    rw [this]
    linarith
  have h3 : (1 : ℚ) / 2000000 ≤ 1 / 2 / d := by
    rw [div_div, one_div_le_one_div (by norm_num) (by linarith)]
    linarith
  obtain ⟨e2, e1⟩ := binary64_close_of_bounds x 100001 (by linarith) (by linarith)
  refine truncToInt_eq_of_between hn0 ?_ ?_ <;> linarith


theorem alpha_arg_exact (Z : Int) (hZ0 : 2299161 ≤ Z) (hZ1 : Z ≤ 5373484) :
    binary64 ((Z : ℚ) - 7468865 / 4) = (Z : ℚ) - 7468865 / 4 := by
  have := binary64_quarters (4 * Z - 7468865) (by omega) (by omega)
  have e : ((4 * Z - 7468865 : Int) : ℚ) / 4 = (Z : ℚ) - 7468865 / 4 := by
    push_cast; ring
  rwa [e] at this

theorem alpha_quot_rem (Z : Int) (hZ0 : 2299161 ≤ Z) (hZ1 : Z ≤ 5373484) :
    ∃ n r : Int, 4 * Z - 7468865 = 146097 * n + r ∧ 0 ≤ r ∧ r ≤ 146096 ∧ 0 ≤ n ∧ n ≤ 96 ∧
      n = (4 * Z - 7468865) / 146097 := by
  refine ⟨(4 * Z - 7468865) / 146097, (4 * Z - 7468865) % 146097, ?_, ?_, ?_, ?_, ?_, rfl⟩ <;>
    omega

theorem alpha_quotient (Z n r : Int) (hnr : 4 * Z - 7468865 = 146097 * n + r) :
    ((Z : ℚ) - 7468865 / 4) / (146097 / 4) = (n : ℚ) + (r : ℚ) / 146097 := by
  have hnrq : (4 : ℚ) * Z - 7468865 = 146097 * n + r := by exact_mod_cast hnr
  field_simp
  linarith

theorem alpha_floor (n r : Int) (hr0 : 0 ≤ r) (hr1 : r ≤ 146096) (hn0 : 0 ≤ n) (hn1 : n ≤ 96) :
    truncToInt (binary64 ((n : ℚ) + (r : ℚ) / 146097)) = n := by
  by_cases hr2 : r = 0
  · subst hr2
    rw [Int.cast_zero, zero_div, add_zero, binary64_intCast n (by omega) (by omega)]
    exact truncToInt_eq_of_between hn0 (le_refl _) (by linarith)
  · refine floor_binary64_of_remainder n r 146097 (by norm_num) (by norm_num) hn0 (by omega)
      (by omega) (by omega) _ ?_ ?_
    · push_cast
      apply add_le_add_left
      exact div_le_div_of_nonneg_right (by linarith) (by norm_num)
    · push_cast
      apply add_le_add_left
      exact div_le_div_of_nonneg_right (by linarith) (by norm_num)

theorem alpha_binary64 (Z : Int) (hZ0 : 2299161 ≤ Z) (hZ1 : Z ≤ 5373484) :
    truncToInt (binary64 (binary64 ((Z : ℚ) - 1867216.25) / 36524.25))
      = (4 * Z - 7468865) / 146097 := by
  obtain ⟨n, r, hnr, hr0, hr1, hn0, hn1, hn⟩ := alpha_quot_rem Z hZ0 hZ1
  rw [lit_1867216, lit_36524, alpha_arg_exact Z hZ0 hZ1, alpha_quotient Z n r hnr, ← hn]
  exact alpha_floor n r hr0 hr1 hn0 hn1

theorem yearC_quot_rem (B : Int) (hB0 : 2299161 ≤ B) (hB1 : B ≤ 8388000) :
    ∃ n r : Int, 20 * B - 2442 = 7305 * n + r ∧ 1 ≤ r ∧ r ≤ 7304 ∧ 0 ≤ n ∧ n ≤ 30000 ∧
      n = (20 * B - 2442) / 7305 := by
  refine ⟨(20 * B - 2442) / 7305, (20 * B - 2442) % 7305, ?_, ?_, ?_, ?_, ?_, rfl⟩ <;> omega

theorem yearC_floor (B n r : Int) (p s : ℚ)
    (hnr : 20 * B - 2442 = 7305 * n + r) (hr0 : 1 ≤ r) (hr1 : r ≤ 7304) (hn0 : 0 ≤ n)
    (hn1 : n ≤ 30000)
    (hp1 : p - 1221 / 10 ≤ 128 / 9007199254740992)
    (hp2 : -(128 / 9007199254740992) ≤ p - 1221 / 10)
    (hs1 : s - ((B : ℚ) - p) ≤ 8388608 / 9007199254740992)
    (hs2 : -(8388608 / 9007199254740992) ≤ s - ((B : ℚ) - p)) :
    truncToInt (binary64 (s / (1461 / 4))) = n := by
  have hBq : (20 : ℚ) * B - 2442 = 7305 * n + r := by exact_mod_cast hnr
  refine floor_binary64_of_remainder n r 7305 (by norm_num) (by norm_num) hn0 (by omega)
    hr0 (by omega) _ ?_ ?_
  · push_cast
    rw [le_div_iff₀ (by norm_num)]
    linarith
  · push_cast
    rw [div_le_iff₀ (by norm_num)]
    linarith

theorem yearC_binary64 (B : Int) (hB0 : 2299161 ≤ B) (hB1 : B ≤ 8388000) :
    truncToInt (binary64 (binary64 ((B : ℚ) - binary64 122.1) / 365.25))
      = (20 * B - 2442) / 7305 := by
  obtain ⟨n, r, hnr, hr0, hr1, hn0, hn1, hn⟩ := yearC_quot_rem B hB0 hB1
  have hBq0 : (2299161 : ℚ) ≤ B := by exact_mod_cast hB0
  have hBq1 : (B : ℚ) ≤ 8388000 := by exact_mod_cast hB1
  rw [lit_122, lit_365, ← hn]
  obtain ⟨p1, p2⟩ := binary64_close_of_bounds (1221 / 10) 127 (by norm_num) (by norm_num)
  obtain ⟨s1, s2⟩ := binary64_close_of_bounds ((B : ℚ) - binary64 (1221 / 10)) 8388607
    (by linarith) (by linarith)
  exact yearC_floor B n r (binary64 (1221 / 10)) (binary64 ((B : ℚ) - binary64 (1221 / 10)))
    hnr hr0 hr1 hn0 hn1 (by linarith) (by linarith) (by linarith) (by linarith)

theorem dayD_binary64 (C : Int) (hC0 : 0 ≤ C) (hC1 : C ≤ 1000000) :
    truncToInt (binary64 (365.25 * (C : ℚ))) = 1461 * C / 4 := by
  have h := binary64_quarters (1461 * C) (by omega) (by omega)
  have e : ((1461 * C : Int) : ℚ) / 4 = 365.25 * (C : ℚ) := by
    rw [lit_365]; push_cast; ring
  rw [e] at h
  rw [h]
  exact truncToInt_of_eq (1461 * C) 4 (by omega) (by rw [lit_365]; push_cast; ring)

theorem monthE_quot_rem (n : Int) (hn0 : 123 ≤ n) (hn1 : n ≤ 488) :
    ∃ k r : Int, 10000 * n = 306001 * k + r ∧ 1 ≤ r ∧ r ≤ 306000 ∧ 0 ≤ k ∧ k ≤ 15 ∧
      k = 10000 * n / 306001 := by
  refine ⟨10000 * n / 306001, 10000 * n % 306001, ?_, ?_, ?_, ?_, ?_, rfl⟩ <;> omega

theorem monthE_floor (n k r : Int) (p : ℚ) (hnr : 10000 * n = 306001 * k + r) (hr0 : 1 ≤ r)
    (hr1 : r ≤ 306000) (hk0 : 0 ≤ k) (hk1 : k ≤ 15)
    (hp1 : p - 306001 / 10000 ≤ 32 / 9007199254740992)
    (hp2 : -(32 / 9007199254740992) ≤ p - 306001 / 10000) :
    truncToInt (binary64 ((n : ℚ) / p)) = k := by
  have hq : (10000 : ℚ) * n = 306001 * k + r := by exact_mod_cast hnr
  have hkq0 : (0 : ℚ) ≤ k := by exact_mod_cast hk0
  have hkq1 : (k : ℚ) ≤ 15 := by exact_mod_cast hk1
  have hrq0 : (1 : ℚ) ≤ r := by exact_mod_cast hr0
  have hrq1 : (r : ℚ) ≤ 306000 := by exact_mod_cast hr1
  have hp : (0 : ℚ) < p := by linarith
  refine floor_binary64_of_remainder k r 306001 (by norm_num) (by norm_num) hk0 (by omega)
    hr0 (by omega) _ ?_ ?_
  · push_cast
    rw [le_div_iff₀ hp]
    obtain ⟨a, ha⟩ : ∃ a : ℚ, a = (k : ℚ) + ((r : ℚ) - 1 / 2) / 306001 := ⟨_, rfl⟩
    rw [← ha]
    have ha1 : 306001 * a = 10000 * n - 1 / 2 := by
      rw [ha]; field_simp; linarith
    have ha0 : 0 ≤ a := by linarith
    have hb : a * (p - 306001 / 10000) ≤ a * (32 / 9007199254740992) :=
      mul_le_mul_of_nonneg_left hp1 ha0
    linarith
  · push_cast
    rw [div_le_iff₀ hp]
    obtain ⟨a, ha⟩ : ∃ a : ℚ, a = (k : ℚ) + ((r : ℚ) + 1 / 2) / 306001 := ⟨_, rfl⟩
    rw [← ha]
    have ha1 : 306001 * a = 10000 * n + 1 / 2 := by
      rw [ha]; field_simp; linarith
    have ha0 : 0 ≤ a := by linarith
    have hb : a * -(32 / 9007199254740992) ≤ a * (p - 306001 / 10000) :=
      mul_le_mul_of_nonneg_left hp2 ha0
    linarith

theorem monthE_binary64 (n : Int) (hn0 : 123 ≤ n) (hn1 : n ≤ 488) :
    truncToInt (binary64 ((n : ℚ) / binary64 30.6001)) = 10000 * n / 306001 := by
  obtain ⟨k, r, hnr, hr0, hr1, hk0, hk1, hk⟩ := monthE_quot_rem n hn0 hn1
  rw [lit_30, ← hk]
  obtain ⟨p1, p2⟩ := binary64_close_of_bounds (306001 / 10000) 31 (by norm_num) (by norm_num)
  exact monthE_floor n k r (binary64 (306001 / 10000)) hnr hr0 hr1 hk0 hk1 (by linarith)
    (by linarith)

theorem dayOfMonth_quot_rem (E : Int) (hE0 : 4 ≤ E) (hE1 : E ≤ 15) :
    ∃ k r : Int, 306001 * E = 10000 * k + r ∧ 1 ≤ r ∧ r ≤ 9999 ∧ 0 ≤ k ∧ k ≤ 459 ∧
      k = 306001 * E / 10000 := by
  refine ⟨306001 * E / 10000, 306001 * E % 10000, ?_, ?_, ?_, ?_, ?_, rfl⟩ <;> omega

theorem dayOfMonth_floor (E k r : Int) (p : ℚ) (hE0 : 4 ≤ E) (hE1 : E ≤ 15)
    (hnr : 306001 * E = 10000 * k + r) (hr0 : 1 ≤ r) (hr1 : r ≤ 9999) (hk0 : 0 ≤ k)
    (hk1 : k ≤ 459)
    (hp1 : p - 306001 / 10000 ≤ 32 / 9007199254740992)
    (hp2 : -(32 / 9007199254740992) ≤ p - 306001 / 10000) :
    truncToInt (binary64 (p * (E : ℚ))) = k := by
  have hq : (306001 : ℚ) * E = 10000 * k + r := by exact_mod_cast hnr
  have hEq0 : (4 : ℚ) ≤ E := by exact_mod_cast hE0
  have hEq1 : (E : ℚ) ≤ 15 := by exact_mod_cast hE1
  have hb1 : (p - 306001 / 10000) * E ≤ 32 / 9007199254740992 * E :=
    mul_le_mul_of_nonneg_right hp1 (by linarith)
  have hb2 : -(32 / 9007199254740992) * E ≤ (p - 306001 / 10000) * E :=
    mul_le_mul_of_nonneg_right hp2 (by linarith)
  refine floor_binary64_of_remainder k r 10000 (by norm_num) (by norm_num) hk0 (by omega)
    hr0 (by omega) _ ?_ ?_
  · push_cast
    linarith
  · push_cast
    linarith

theorem dayOfMonth_binary64 (E : Int) (hE0 : 4 ≤ E) (hE1 : E ≤ 15) :
    truncToInt (binary64 (binary64 30.6001 * (E : ℚ))) = 306001 * E / 10000 := by
  obtain ⟨k, r, hnr, hr0, hr1, hk0, hk1, hk⟩ := dayOfMonth_quot_rem E hE0 hE1
  rw [lit_30, ← hk]
  obtain ⟨p1, p2⟩ := binary64_close_of_bounds (306001 / 10000) 31 (by norm_num) (by norm_num)
  exact dayOfMonth_floor E k r (binary64 (306001 / 10000)) hE0 hE1 hnr hr0 hr1 hk0 hk1
    (by linarith) (by linarith)

theorem meeus_chain_bounds (Z : Int) (hZ0 : 2299161 ≤ Z) (hZ1 : Z ≤ 5373484) :
    0 ≤ (4 * Z - 7468865) / 146097 ∧
    2299161 ≤ Z + 1 + (4 * Z - 7468865) / 146097 - (4 * Z - 7468865) / 146097 / 4 + 1524 ∧
    Z + 1 + (4 * Z - 7468865) / 146097 - (4 * Z - 7468865) / 146097 / 4 + 1524 ≤ 8388000 := by
  refine ⟨?_, ?_, ?_⟩ <;> omega

theorem meeus_chain_bounds2 (B : Int) (hB0 : 2299161 ≤ B) (hB1 : B ≤ 8388000) :
    0 ≤ (20 * B - 2442) / 7305 ∧ (20 * B - 2442) / 7305 ≤ 1000000 ∧
    123 ≤ B - 1461 * ((20 * B - 2442) / 7305) / 4 ∧
    B - 1461 * ((20 * B - 2442) / 7305) / 4 ≤ 488 := by
  refine ⟨?_, ?_, ?_, ?_⟩ <;> omega

theorem meeus_chain_bounds3 (n : Int) (hn0 : 123 ≤ n) (hn1 : n ≤ 488) :
    4 ≤ 10000 * n / 306001 ∧ 10000 * n / 306001 ≤ 15 := by
  constructor <;> omega

/-- The date part of `MJDToDateTime` in binary64 agrees with the integer form. -/
theorem dateOfDayNumber_binary64 (Z : Int) (hZ0 : 2299161 ≤ Z) (hZ1 : Z ≤ 5373484) :
    dateOfDayNumber binary64 Z = meeusDate Z := by
  obtain ⟨ha, hB0, hB1⟩ := meeus_chain_bounds Z hZ0 hZ1
  obtain ⟨hC0, hC1, hn0, hn1⟩ := meeus_chain_bounds2 _ hB0 hB1
  obtain ⟨hE0, hE1⟩ := meeus_chain_bounds3 _ hn0 hn1
  unfold dateOfDayNumber meeusDate
  dsimp only
  rw [if_neg (show ¬ Z < 2299161 by omega), alpha_binary64 Z hZ0 hZ1,
    Int.tdiv_eq_ediv ha (by norm_num), yearC_binary64 _ hB0 hB1, dayD_binary64 _ hC0 hC1,
    monthE_binary64 _ hn0 hn1, dayOfMonth_binary64 _ hE0 hE1]

theorem lit_2400000 : (2400000.5 : ℚ) = 4800001 / 2 := by norm_num

theorem lit_half : (0.5 : ℚ) = 1 / 2 := by norm_num

/-- Midnight: every intermediate value of the day-number computation is a binary64 number. -/
theorem dayNumber_midnight (Z0 : Int) (hZ0 : 2299161 ≤ Z0) (hZ1 : Z0 ≤ 5373484) :
    binary64 (binary64 (binary64 ((Z0 - 2400001 : Int) : ℚ) + 4800001 / 2) + 1 / 2)
      = (Z0 : ℚ) := by
  rw [binary64_intCast _ (by omega) (by omega)]
  have h2 := binary64_halves (2 * Z0 - 1) (by omega) (by omega)
  have e2 : ((2 * Z0 - 1 : Int) : ℚ) / 2 = ((Z0 - 2400001 : Int) : ℚ) + 4800001 / 2 := by
    push_cast; ring
  rw [e2] at h2
  rw [h2]
  have e3 : ((Z0 - 2400001 : Int) : ℚ) + 4800001 / 2 + 1 / 2 = (Z0 : ℚ) := by
    push_cast; ring
  rw [e3]
  exact binary64_intCast _ (by omega) (by omega)

/-- The three roundings on the way to the day number move the value by less than
`2 ^ (-28)` days. -/
theorem dayNumber_error (z f a b t : ℚ) (hz0 : 2299161 ≤ z) (hz1 : z ≤ 5373484)
    (hf0 : 0 ≤ f) (hf1 : f ≤ 1)
    (ha : a = binary64 (z - 2400001 + f)) (hb : b = binary64 (a + 4800001 / 2))
    (ht : t = binary64 (b + 1 / 2)) :
    t - z - f ≤ 1 / 2 ^ 28 ∧ -(1 / 2 ^ 28) ≤ t - z - f ∧ 0 ≤ b + 1 / 2 := by
  obtain ⟨a1, a2⟩ := binary64_close_of_bounds (z - 2400001 + f) 4194303 (by linarith)
    (by linarith)
  rw [← ha] at a1 a2
  obtain ⟨b1, b2⟩ := binary64_close_of_bounds (a + 4800001 / 2) 8388607 (by linarith)
    (by linarith)
  rw [← hb] at b1 b2
  obtain ⟨c1, c2⟩ := binary64_close_of_bounds (b + 1 / 2) 8388607 (by linarith) (by linarith)
  rw [← ht] at c1 c2
  refine ⟨?_, ?_, ?_⟩ <;> norm_num <;> linarith

theorem dayNumber_binary64 (Z0 T : Int) (hZ0 : 2299161 ≤ Z0) (hZ1 : Z0 ≤ 5373484)
    (hT0 : 0 ≤ T) (hT1 : T < 86400) (t : ℚ)
    (ht : t = binary64 (binary64 (binary64 (((Z0 - 2400001 : Int) : ℚ) + (T : ℚ) / 86400)
      + 2400000.5) + 0.5)) :
    truncToInt t = Z0 ∧ binary64 (t - (Z0 : ℚ)) = t - (Z0 : ℚ) ∧ 0 ≤ t - (Z0 : ℚ) ∧
    t - (Z0 : ℚ) ≤ 1 - 1 / 2 ^ 53 ∧ |t - (Z0 : ℚ) - (T : ℚ) / 86400| ≤ 1 / 2 ^ 28 := by
  rw [lit_2400000, lit_half] at ht
  have hZq0 : (2299161 : ℚ) ≤ Z0 := by exact_mod_cast hZ0
  have hZq1 : (Z0 : ℚ) ≤ 5373484 := by exact_mod_cast hZ1
  have hz : (0 : ℚ) ≤ (Z0 : ℚ) := by linarith
  by_cases hT : T = 0
  · subst hT
    rw [Int.cast_zero, zero_div, add_zero, dayNumber_midnight Z0 hZ0 hZ1] at ht
    subst ht
    refine ⟨?_, ?_, ?_, ?_, ?_⟩
    · rw [truncToInt_of_nonneg hz, Int.floor_intCast]
    · rw [sub_self, binary64_zero]
    · rw [sub_self]
    · rw [sub_self]; norm_num
    · rw [sub_self, Int.cast_zero, zero_div, sub_self, abs_zero]; positivity
  · have hT1' : (1 : ℚ) ≤ T := by exact_mod_cast (by omega : 1 ≤ T)
    have hT2' : (T : ℚ) ≤ 86399 := by exact_mod_cast (by omega : T ≤ 86399)
    have hfrac1 : (1 : ℚ) / 86400 ≤ (T : ℚ) / 86400 :=
      div_le_div_of_nonneg_right hT1' (by norm_num)
    have hfrac2 : (T : ℚ) / 86400 ≤ 86399 / 86400 :=
      div_le_div_of_nonneg_right hT2' (by norm_num)
    have hcast : ((Z0 - 2400001 : Int) : ℚ) = (Z0 : ℚ) - 2400001 := by push_cast; ring
    rw [hcast] at ht
    obtain ⟨e1, e2, hb0⟩ := dayNumber_error (Z0 : ℚ) ((T : ℚ) / 86400) _ _ t hZq0 hZq1
      (by linarith) (by linarith) rfl rfl ht
    have h28 : (1 : ℚ) / 2 ^ 28 ≤ 1 / 200000000 := by norm_num
    have hlo : (Z0 : ℚ) ≤ t := by linarith
    have hhi : t < (Z0 : ℚ) + 1 := by linarith
    obtain ⟨hs1, hs2⟩ := binary64_sub_floor hb0 Z0 (by omega) (by rw [← ht]; exact hlo)
      (by rw [← ht]; exact hhi)
    rw [← ht] at hs1 hs2
    refine ⟨truncToInt_eq_of_between (by omega) hlo hhi, hs1, by linarith, hs2, ?_⟩
    rw [abs_le]
    exact ⟨e2, e1⟩

end DateChain

section FileName

theorem year_ge_of_cutover (y m d : Int) (hm1 : 1 ≤ m) (hm2 : m ≤ 12) (hd1 : 1 ≤ d)
    (hd2 : d ≤ daysInMonth y m) (hcut : 2299161 ≤ julianDayNumber y m d) : 1582 ≤ y := by
  have hd31 : d ≤ 31 := le_trans hd2 (daysInMonth_le y m).1
  have hd30 : m = 4 ∨ m = 6 ∨ m = 9 ∨ m = 11 → d ≤ 30 :=
    fun h => le_trans hd2 ((daysInMonth_le y m).2.2 h)
  by_cases hm : m ≤ 2
  · rw [julianDayNumber_janFeb y m d hm1 hm] at hcut
    omega
  · rw [julianDayNumber_marDec y m d (by omega) hm2] at hcut
    obtain ⟨hk, -, -⟩ := meeusE_marDec m d _ (by omega) hm2 hd1 hd31 hd30 rfl
    omega

theorem MJDToDateTime_id_exactMJD (dt : DateTime) (hv : ValidDateTime dt)
    (hcut : 2299161 ≤ julianDayNumber dt.year dt.month dt.day) :
    MJDToDateTime id (exactMJD dt) = dt := by
  obtain ⟨hm1, hm2, hd1, hd2, hh0, hh1, hi0, hi1, hs0, hs1⟩ := hv
  unfold exactMJD
  rw [MJDToDateTime_exact _ _ hcut (by omega) (by omega),
    meeusDate_julianDayNumber dt.year dt.month dt.day hm1 hm2 hd1 hd2]
  obtain ⟨y, m, d, h, i, s⟩ := dt
  simp only [DateTime.mk.injEq, true_and] at *
  omega

theorem MONTH_NAMES_length (m : Int) (hm1 : 1 ≤ m) (hm2 : m ≤ 12) :
    (MONTH_NAMES.getD m.toNat []).length = 3 := by
  interval_cases m <;> rfl

theorem simStamp_eq_stampText (dt : DateTime) (hv : ValidDateTime dt) (hy0 : 0 ≤ dt.year)
    (hy1 : dt.year ≤ 9999) : simStamp dt = stampText dt := by
  obtain ⟨hm1, hm2, hd1, hd2, hh0, hh1, hi0, hi1, hs0, hs1⟩ := hv
  have hd31 : dt.day ≤ 31 := le_trans hd2 (daysInMonth_le dt.year dt.month).1
  unfold simStamp stampText
  dsimp only
  rw [if_neg (by omega), if_neg (by omega), fmtD0_two dt.day (by omega) (by omega),
    fmtD0_four dt.year hy0 hy1, fmtD0_two dt.hour hh0 (by omega),
    fmtD0_two dt.min hi0 (by omega), fmtD0_two dt.sec hs0 (by omega)]

theorem stampText_length (dt : DateTime) (hm1 : 1 ≤ dt.month) (hm2 : dt.month ≤ 12) :
    (stampText dt).length = 20 := by
  unfold stampText
  have h1 : "-".toList.length = 1 := rfl
  have h2 : ".".toList.length = 1 := rfl
  simp only [List.length_append, MONTH_NAMES_length dt.month hm1 hm2, twoDigits, fourDigits,
    List.length_cons, List.length_nil, h1, h2]

theorem folderDate_length (q : SaveQueries) : (folderDate q).length ≤ 31 := by
  unfold folderDate snprintf
  rw [List.length_take]
  omega

theorem vesselName_length (q : SaveQueries) : (vesselName q).length ≤ 255 := by
  unfold vesselName
  split
  · unfold snprintf
    rw [List.length_take]
    omega
  · decide

theorem julianDayNumber_le (y m d : Int) (hm1 : 1 ≤ m) (hm2 : m ≤ 12) (hd1 : 1 ≤ d)
    (hd2 : d ≤ daysInMonth y m) (hy : y ≤ 9999) : julianDayNumber y m d ≤ 5373484 := by
  have hd31 : d ≤ 31 := le_trans hd2 (daysInMonth_le y m).1
  have hd30 : m = 4 ∨ m = 6 ∨ m = 9 ∨ m = 11 → d ≤ 30 :=
    fun h => le_trans hd2 ((daysInMonth_le y m).2.2 h)
  by_cases hm : m ≤ 2
  · rw [julianDayNumber_janFeb y m d hm1 hm]
    omega
  · rw [julianDayNumber_marDec y m d (by omega) hm2]
    obtain ⟨hk, -, -⟩ := meeusE_marDec m d _ (by omega) hm2 hd1 hd31 hd30 rfl
    omega

theorem MJDToDateTime_split (fl : ℚ → ℚ) (mjd : ℚ) :
    MJDToDateTime fl mjd =
      { year := (dateOfDayNumber fl (truncToInt (fl (fl (mjd + 2400000.5) + 0.5)))).1,
        month := (dateOfDayNumber fl (truncToInt (fl (fl (mjd + 2400000.5) + 0.5)))).2.1,
        day := (dateOfDayNumber fl (truncToInt (fl (fl (mjd + 2400000.5) + 0.5)))).2.2,
        hour := (timeOfDayFraction fl (fl (fl (fl (mjd + 2400000.5) + 0.5)
          - truncToInt (fl (fl (mjd + 2400000.5) + 0.5))))).1,
        min := (timeOfDayFraction fl (fl (fl (fl (mjd + 2400000.5) + 0.5)
          - truncToInt (fl (fl (mjd + 2400000.5) + 0.5))))).2.1,
        sec := (timeOfDayFraction fl (fl (fl (fl (mjd + 2400000.5) + 0.5)
          - truncToInt (fl (fl (mjd + 2400000.5) + 0.5))))).2.2 } := rfl

/-- In binary64 arithmetic `MJDToDateTime` returns the exact date, and the time of day either
exactly or one second early. -/
theorem MJDToDateTime_binary64 (dt : DateTime) (hv : ValidDateTime dt)
    (hcut : 2299161 ≤ julianDayNumber dt.year dt.month dt.day) (hy : dt.year ≤ 9999) :
    ∃ s : Int, (s = secondsOfDay dt ∨ s = secondsOfDay dt - 1) ∧ 0 ≤ s ∧ s < 86400 ∧
      MJDToDateTime binary64 (binary64 (exactMJD dt)) = withSecondsOfDay dt s := by
  obtain ⟨hm1, hm2, hd1, hd2, hh0, hh1, hi0, hi1, hs0, hs1⟩ := hv
  have hZ1 := julianDayNumber_le dt.year dt.month dt.day hm1 hm2 hd1 hd2 hy
  have hdate := meeusDate_julianDayNumber dt.year dt.month dt.day hm1 hm2 hd1 hd2
  obtain ⟨hZ, hFe, hF0, hF1, hFT⟩ := dayNumber_binary64
    (julianDayNumber dt.year dt.month dt.day) (3600 * dt.hour + 60 * dt.min + dt.sec) hcut hZ1
    (by omega) (by omega) _ rfl
  obtain ⟨s, hs, hs0', hs1', htime⟩ := timeOfDayFraction_binary64 _
    (3600 * dt.hour + 60 * dt.min + dt.sec) hF0 hF1 hFT
  refine ⟨s, hs, hs0', hs1', ?_⟩
  rw [MJDToDateTime_split]
  unfold exactMJD
  rw [hZ, hFe, htime, dateOfDayNumber_binary64 _ hcut hZ1, hdate]
  rfl

theorem withSecondsOfDay_valid (dt : DateTime) (hv : ValidDateTime dt) (s : Int) (hs0 : 0 ≤ s)
    (hs1 : s < 86400) : ValidDateTime (withSecondsOfDay dt s) := by
  obtain ⟨hm1, hm2, hd1, hd2, -⟩ := hv
  refine ⟨hm1, hm2, hd1, hd2, ?_, ?_, ?_, ?_, ?_, ?_⟩ <;> simp only [withSecondsOfDay] <;> omega

theorem GenerateSaveFilename_of_decode (fl : ℚ → ℚ) (q : SaveQueries) (dt : DateTime)
    (hv : ValidDateTime dt) (hy0 : 0 ≤ dt.year) (hy1 : dt.year ≤ 9999)
    (hdec : MJDToDateTime fl q.simMJD = dt) :
    GenerateSaveFilename fl q =
      "Autosave/".toList ++ folderDate q ++ "/".toList ++ vesselName q ++ "-".toList
        ++ stampText dt := by
  unfold GenerateSaveFilename
  dsimp only
  rw [hdec, simStamp_eq_stampText dt hv hy0 hy1]
  unfold snprintf
  apply List.take_of_length_le
  have h1 := folderDate_length q
  have h2 := vesselName_length q
  have h3 := stampText_length dt hv.1 hv.2.1
  simp only [List.length_append, h3]
  have h4 : "Autosave/".toList.length = 9 := rfl
  have h5 : "/".toList.length = 1 := rfl
  have h6 : "-".toList.length = 1 := rfl
  omega

/-- C9 (amended): for every valid Gregorian date-time on or after the cutover (Julian day number
at least 2299161) with a year up to 9999, and its exact Modified Julian Date:
(1) evaluated in exact rational arithmetic (`fl = id`), `MJDToDateTime` returns exactly that
date-time and the generated file name is `Autosave/<SystemDate>/<VesselName>-` followed by
`DD-Mon-YYYY-HH.MM.SS`, `Mon` from the month table;
(2) evaluated in the IEEE binary64 arithmetic of the code on the `double` nearest to the MJD,
`MJDToDateTime` returns the year, month and day exactly and a time of day that is the given one
or one second before it, and the file name ends in `DD-Mon-YYYY-HH.MM.SS` of that returned
date-time;
(3) in binary64 the example 2024-01-15T12:30:45 (MJD 60324 + 45045/86400) decodes exactly and
renders as `15-Jan-2024-12.30.45`. -/
theorem C9_decode_and_stamp (dt : DateTime) (q : SaveQueries) (hv : ValidDateTime dt)
    (hcut : 2299161 ≤ julianDayNumber dt.year dt.month dt.day) (hy : dt.year ≤ 9999) :
    (MJDToDateTime id (exactMJD dt) = dt ∧
      GenerateSaveFilename id { q with simMJD := exactMJD dt } =
        "Autosave/".toList ++ folderDate q ++ "/".toList ++ vesselName q ++ "-".toList
          ++ stampText dt) ∧
    (∃ s : Int, (s = secondsOfDay dt ∨ s = secondsOfDay dt - 1) ∧ 0 ≤ s ∧
      MJDToDateTime binary64 (binary64 (exactMJD dt)) = withSecondsOfDay dt s ∧
      GenerateSaveFilename binary64 { q with simMJD := binary64 (exactMJD dt) } =
        "Autosave/".toList ++ folderDate q ++ "/".toList ++ vesselName q ++ "-".toList
          ++ stampText (withSecondsOfDay dt s)) ∧
    (exactMJD exampleDateTime = 60324 + 45045 / 86400 ∧
      MJDToDateTime binary64 (binary64 (exactMJD exampleDateTime)) = exampleDateTime ∧
      GenerateSaveFilename binary64 (exampleQueries 0)
        = "Autosave/2026-10-30/Shuttle-15-Jan-2024-12.30.45".toList) := by
  have hy0 : 0 ≤ dt.year := by
    have := year_ge_of_cutover dt.year dt.month dt.day hv.1 hv.2.1 hv.2.2.1 hv.2.2.2.1 hcut
    omega
  have hdec := MJDToDateTime_id_exactMJD dt hv hcut
  refine ⟨⟨hdec, ?_⟩, ?_, by decide!, by decide!, by decide!⟩
  · exact GenerateSaveFilename_of_decode id { q with simMJD := exactMJD dt } dt hv hy0 hy hdec
  · obtain ⟨s, hs, hs0, hs1, hb⟩ := MJDToDateTime_binary64 dt hv hcut hy
    refine ⟨s, hs, hs0, hb, ?_⟩
    exact GenerateSaveFilename_of_decode binary64 { q with simMJD := binary64 (exactMJD dt) }
      (withSecondsOfDay dt s) (withSecondsOfDay_valid dt hv s hs0 hs1) hy0 hy hb

/-- C9 at the example of the specification, 2024-01-15T12:30:45: exact decode in exact
arithmetic, and in binary64 a decode to the same day at 12:30:45 or 12:30:44. -/
theorem C9_decode_and_stamp_witness :
    ValidDateTime exampleDateTime ∧
    MJDToDateTime id (exactMJD exampleDateTime) = exampleDateTime ∧
    (∃ s : Int, (s = secondsOfDay exampleDateTime ∨ s = secondsOfDay exampleDateTime - 1) ∧
      MJDToDateTime binary64 (binary64 (exactMJD exampleDateTime))
        = withSecondsOfDay exampleDateTime s) :=
  have hv : ValidDateTime exampleDateTime := by decide
  have hc := C9_decode_and_stamp exampleDateTime (exampleQueries 0) hv (by decide) (by decide)
  ⟨hv, hc.1.1, hc.2.1.elim fun s hs => ⟨s, hs.1, hs.2.2.1⟩⟩

/-- C9 as stated fails on the `double` arithmetic of the code: for 2024-01-15T12:30:47, two
seconds after the example of the specification, the binary64 evaluation of `MJDToDateTime` on the
`double` nearest to the exact MJD returns 12:30:46, and the file name ends in `12.30.46`. -/
theorem C9_binary64_counterexample :
    ValidDateTime laterDateTime ∧
    2299161 ≤ julianDayNumber laterDateTime.year laterDateTime.month laterDateTime.day ∧
    laterDateTime.year ≤ 9999 ∧
    MJDToDateTime binary64 (binary64 (exactMJD laterDateTime))
      = { laterDateTime with sec := 46 } ∧
    MJDToDateTime binary64 (binary64 (exactMJD laterDateTime)) ≠ laterDateTime ∧
    GenerateSaveFilename binary64
        { exampleQueries 0 with simMJD := binary64 (exactMJD laterDateTime) }
      = "Autosave/2026-10-30/Shuttle-15-Jan-2024-12.30.46".toList := by
  refine ⟨by decide, by decide, by decide, by decide!, by decide!, by decide!⟩

end FileName
